import Mathlib

/-!
DualShock 3 raw-HID pad driver (`pcsx2/PAD/Linux/DualShock3.h`, `DualShock3.cpp`).

A shallow embedding of the driver: the input-report buffer and its decoding
(`GetInput`), the drain-to-latest refresh loop (`UpdateDeviceState`) over a scripted
non-blocking handle, the rumble output-report encoder (`RumbleWithStrength`), and the
scan of the device directory (`EnumerateDualShock3s`).

Conventions.
* A `uint8_t` is a `Fin 256`; the C `int` is a mathematical integer wrapped into the
  signed 32-bit range by `toInt32` wherever the source does arithmetic on it.
* The operating-system calls are external: their outcomes are data supplied to the
  model (a script of read outcomes, one write outcome, a directory listing with the
  outcome of the calls made on each entry).
* A `float` is a finite dyadic value `m * 2 ^ e`, an infinity or a NaN; the float
  product of the source is the exact product rounded to binary32 (24 significant bits,
  round to nearest, ties to even).
-/

namespace DS3

/-! ## Machine types -/

/-- One byte, `std::uint8_t` / `unsigned char`. -/
abbrev uint8_t := Fin 256

/-- Two's-complement wrap of a mathematical integer into the 32-bit `int` range. -/
def toInt32 (x : Int) : Int := (x + 2 ^ 31) % 2 ^ 32 - 2 ^ 31

/-! ## Constants of `DualShock3.h` and `DualShock3.cpp` -/

/-- Header, line 5: `#define INPUT_REPORT_DATA_LENGTH 49`. -/
def INPUT_REPORT_DATA_LENGTH : Nat := 49

def DIGITALS : Nat := 0x2
def DIGITALS_SELECT : Nat := 1
def DIGITALS_L3 : Nat := 1 <<< 1
def DIGITALS_R3 : Nat := 1 <<< 2
def DIGITALS_START : Nat := 1 <<< 3

def ANALOG_STICK_LEFT_X : Nat := 0x6
def ANALOG_STICK_LEFT_Y : Nat := 0x7
def ANALOG_STICK_RIGHT_X : Nat := 0x8
def ANALOG_STICK_RIGHT_Y : Nat := 0x9

def ANALOG_DPAD_UP : Nat := 0xe
def ANALOG_DPAD_RIGHT : Nat := 0xf
def ANALOG_DPAD_DOWN : Nat := 0x10
def ANALOG_DPAD_LEFT : Nat := 0x11

def ANALOG_L2 : Nat := 0x12
def ANALOG_R2 : Nat := 0x13
def ANALOG_L1 : Nat := 0x14
def ANALOG_R1 : Nat := 0x15
def ANALOG_TRIANGLE : Nat := 0x16
def ANALOG_CIRCLE : Nat := 0x17
def ANALOG_CROSS : Nat := 0x18
def ANALOG_SQUARE : Nat := 0x19

def OUTPUT_REPORT_DATA_LENGTH : Nat := 0x24

def OUTPUT_RUMBLE_SMALL_MOTOR_DURATION : Nat := 0x2
def OUTPUT_RUMBLE_SMALL_MOTOR_ON : Nat := 0x3
def OUTPUT_RUMBLE_LARGE_MOTOR_DURATION : Nat := 0x4
def OUTPUT_RUMBLE_LARGE_MOTOR_FORCE : Nat := 0x5

/-- The errno value of "resource temporarily unavailable" (would block) on Linux. -/
def EAGAIN : Nat := 11

/-! ## Axis transform -/

/-- Source lines 45-48: `return (value - 127) * (1 << 8);` with `value` promoted to
`int`; both the subtraction and the product are 32-bit `int` operations. -/
def ds3_axis_to_pcsx2 (value : uint8_t) : Int :=
  toInt32 (toInt32 ((value.val : Int) - 127) * toInt32 (1 <<< 8))

/-! ## The session -/

/-- The control identifiers `GetInput` switches on. The enumeration itself is declared
in a header outside this fragment; the constructors are the case labels of the switch
in source lines 141-188, and `other` stands for every enumerator the switch does not
name (its `default` branch). -/
inductive gamePadValues
  | PAD_L2 | PAD_R2 | PAD_L1 | PAD_R1
  | PAD_TRIANGLE | PAD_CIRCLE | PAD_CROSS | PAD_SQUARE
  | PAD_SELECT | PAD_L3 | PAD_R3 | PAD_START
  | PAD_UP | PAD_RIGHT | PAD_DOWN | PAD_LEFT
  | PAD_L_UP | PAD_L_RIGHT | PAD_L_DOWN | PAD_L_LEFT
  | PAD_R_UP | PAD_R_RIGHT | PAD_R_DOWN | PAD_R_LEFT
  | other (id : Nat)
  deriving DecidableEq, Repr

/-- The fields of a `DualShock3` object: the handle, the report buffer
`std::uint8_t m_report_data[INPUT_REPORT_DATA_LENGTH]`, and the health flag
`m_no_error` inherited from the device base class. -/
structure DualShock3 where
  m_fd : Int
  m_report_data : Fin INPUT_REPORT_DATA_LENGTH → uint8_t
  m_no_error : Bool

/-- Source lines 117-121, with the header's zero initialiser of the buffer. -/
def DualShock3.new (fd : Int) : DualShock3 :=
  { m_fd := fd, m_report_data := fun _ => 0, m_no_error := true }

/-- Source lines 137-192. A byte read from the buffer is promoted to `int`; the
digital flags are the byte masked with the flag constant. -/
def GetInput (self : DualShock3) (input : gamePadValues) : Int :=
  match input with
  | .PAD_L2 => (self.m_report_data ⟨ANALOG_L2, by decide⟩).val
  | .PAD_R2 => (self.m_report_data ⟨ANALOG_R2, by decide⟩).val
  | .PAD_L1 => (self.m_report_data ⟨ANALOG_L1, by decide⟩).val
  | .PAD_R1 => (self.m_report_data ⟨ANALOG_R1, by decide⟩).val
  | .PAD_TRIANGLE => (self.m_report_data ⟨ANALOG_TRIANGLE, by decide⟩).val
  | .PAD_CIRCLE => (self.m_report_data ⟨ANALOG_CIRCLE, by decide⟩).val
  | .PAD_CROSS => (self.m_report_data ⟨ANALOG_CROSS, by decide⟩).val
  | .PAD_SQUARE => (self.m_report_data ⟨ANALOG_SQUARE, by decide⟩).val
  | .PAD_SELECT => ((self.m_report_data ⟨DIGITALS, by decide⟩).val &&& DIGITALS_SELECT : Nat)
  | .PAD_L3 => ((self.m_report_data ⟨DIGITALS, by decide⟩).val &&& DIGITALS_L3 : Nat)
  | .PAD_R3 => ((self.m_report_data ⟨DIGITALS, by decide⟩).val &&& DIGITALS_R3 : Nat)
  | .PAD_START => ((self.m_report_data ⟨DIGITALS, by decide⟩).val &&& DIGITALS_START : Nat)
  | .PAD_UP => (self.m_report_data ⟨ANALOG_DPAD_UP, by decide⟩).val
  | .PAD_RIGHT => (self.m_report_data ⟨ANALOG_DPAD_RIGHT, by decide⟩).val
  | .PAD_DOWN => (self.m_report_data ⟨ANALOG_DPAD_DOWN, by decide⟩).val
  | .PAD_LEFT => (self.m_report_data ⟨ANALOG_DPAD_LEFT, by decide⟩).val
  | .PAD_L_UP => ds3_axis_to_pcsx2 (self.m_report_data ⟨ANALOG_STICK_LEFT_Y, by decide⟩)
  | .PAD_L_RIGHT => ds3_axis_to_pcsx2 (self.m_report_data ⟨ANALOG_STICK_LEFT_X, by decide⟩)
  | .PAD_L_DOWN => ds3_axis_to_pcsx2 (self.m_report_data ⟨ANALOG_STICK_LEFT_Y, by decide⟩)
  | .PAD_L_LEFT => ds3_axis_to_pcsx2 (self.m_report_data ⟨ANALOG_STICK_LEFT_X, by decide⟩)
  | .PAD_R_UP => ds3_axis_to_pcsx2 (self.m_report_data ⟨ANALOG_STICK_RIGHT_Y, by decide⟩)
  | .PAD_R_RIGHT => ds3_axis_to_pcsx2 (self.m_report_data ⟨ANALOG_STICK_RIGHT_X, by decide⟩)
  | .PAD_R_DOWN => ds3_axis_to_pcsx2 (self.m_report_data ⟨ANALOG_STICK_RIGHT_Y, by decide⟩)
  | .PAD_R_LEFT => ds3_axis_to_pcsx2 (self.m_report_data ⟨ANALOG_STICK_RIGHT_X, by decide⟩)
  | .other _ => 0

/-! ## Diagnostics -/

/-- What the driver reports on the diagnostic stream through `std::cerr` and
`std::perror`, recorded instead of printed. -/
inductive Diagnostic
  /-- Source line 207: a completed read shorter than the compared length. -/
  | read_only_got (bytes_read : Int)
  /-- Source line 215: `perror` after a read failure, with the errno it reports. -/
  | read_failed (errno : Nat)
  /-- Source line 302: a completed write shorter than the report. -/
  | write_only_got (bytes_written : Int)
  /-- Source line 297: `perror` after a write failure, with the errno it reports. -/
  | write_failed (errno : Nat)
  deriving DecidableEq, Repr

/-! ## State refresh -/

/-- What the next `read` on the non-blocking handle meets: a queued input report, or a
failure with the given errno. -/
inductive ReadOutcome
  | report (bytes : List uint8_t)
  | fail (errno : Nat)
  deriving DecidableEq, Repr

/-- The result of one `read(fd, buf, count)`: the returned value, errno afterwards, and
the buffer afterwards. -/
structure ReadResult where
  ret : Int
  errno : Nat
  buf : Fin INPUT_REPORT_DATA_LENGTH → uint8_t

/-- The system call `read(m_fd, buf, count)` on a raw-HID handle opened non-blocking.
With a report queued the call takes it off the queue, copies its first
`min count length` bytes to the start of the buffer and returns that number (what is
left of a longer report is dropped); errno is untouched. With nothing queued (`none`)
it returns -1 with errno `EAGAIN`; a failing call returns -1 with its errno. -/
def read (next : Option ReadOutcome) (buf : Fin INPUT_REPORT_DATA_LENGTH → uint8_t)
    (count : Nat) (errno : Nat) : ReadResult :=
  match next with
  | none => { ret := -1, errno := EAGAIN, buf := buf }
  | some (.fail e) => { ret := -1, errno := e, buf := buf }
  | some (.report bytes) =>
    { ret := (min count bytes.length : Nat)
      errno := errno
      buf := fun i => if i.val < count then bytes.getD i.val (buf i) else buf i }

/-- The outcome of one pass through the body of the drain loop. -/
inductive LoopStep
  /-- The loop condition `bytes_read != -1` holds: go round again. -/
  | again (self : DualShock3) (errno : Nat)
  /-- The function is left (by `return`, or by falling out of the loop). -/
  | done (self : DualShock3) (diag : List Diagnostic)

/-- Source lines 201-217 for one iteration: the read, the short-read test of lines
203-211, the loop condition of line 199, and, when the loop is left, the errno test of
lines 213-217. -/
def UpdateDeviceState.body (self : DualShock3) (errno : Nat) (next : Option ReadOutcome) :
    LoopStep :=
  let r := read next self.m_report_data OUTPUT_REPORT_DATA_LENGTH errno
  let bytes_read := r.ret
  let self := { self with m_report_data := r.buf }
  if bytes_read < OUTPUT_REPORT_DATA_LENGTH ∧ bytes_read > -1 then
    .done { self with m_no_error := false } [.read_only_got bytes_read]
  else if bytes_read ≠ -1 then
    .again self r.errno
  else if r.errno ≠ EAGAIN then
    .done { self with m_no_error := false } [.read_failed r.errno]
  else
    .done self []

/-- What a call of `UpdateDeviceState` leaves behind: the session, the `count` argument of
every `read` it issued (in call order), the diagnostics, and the outcomes still queued
on the handle. -/
structure Refresh where
  self : DualShock3
  reads : List Nat
  diag : List Diagnostic
  pending : List ReadOutcome

/-- The drain loop of source lines 199-212 over the outcomes queued on the handle. Each
pass issues one read of `OUTPUT_REPORT_DATA_LENGTH` bytes. (The last branch is never
taken: a read that finds the queue empty returns -1.) -/
def UpdateDeviceState.loop (self : DualShock3) (errno : Nat) :
    List ReadOutcome → Refresh
  | [] =>
    match UpdateDeviceState.body self errno none with
    | .done s d => { self := s, reads := [OUTPUT_REPORT_DATA_LENGTH], diag := d, pending := [] }
    | .again s _ => { self := s, reads := [OUTPUT_REPORT_DATA_LENGTH], diag := [], pending := [] }
  | o :: rest =>
    match UpdateDeviceState.body self errno (some o) with
    | .done s d => { self := s, reads := [OUTPUT_REPORT_DATA_LENGTH], diag := d, pending := rest }
    | .again s e =>
      let r := UpdateDeviceState.loop s e rest
      { r with reads := OUTPUT_REPORT_DATA_LENGTH :: r.reads }

/-- Source lines 194-218: `errno = 0`, then the drain loop. -/
def UpdateDeviceState (self : DualShock3) (handle : List ReadOutcome) : Refresh :=
  UpdateDeviceState.loop self 0 handle

/-! ## Floating point -/

/-- A `float` (IEEE-754 binary32) as the program sees it: the finite value `m * 2 ^ e`,
an infinity, or a NaN. Different pairs `(m, e)` may denote the same value; the sign of
zero is not kept, nothing in the driver depends on it. -/
inductive float
  | finite (m : Int) (e : Int)
  | inf (negative : Bool)
  | nan
  deriving DecidableEq, Repr

/-- Number of binary digits of `a`, by halving at most `fuel` times. -/
def bitLengthAux : Nat → Nat → Nat
  | 0, _ => 0
  | fuel + 1, a => if a = 0 then 0 else bitLengthAux fuel (a / 2) + 1

/-- Number of binary digits of `a` (0 for 0): `2 ^ (bitLength a - 1) ≤ a < 2 ^ bitLength a`. -/
def bitLength (a : Nat) : Nat := bitLengthAux a a

/-- The integer nearest to `a / 2 ^ k`, a tie going to the even neighbour. -/
def shiftRightRNE (a k : Nat) : Nat :=
  let q := a / 2 ^ k
  let r := a % 2 ^ k
  if 2 * r < 2 ^ k then q
  else if 2 ^ k < 2 * r then q + 1
  else if q % 2 = 0 then q else q + 1

/-- The exponent of the last place that binary32 keeps of `a * 2 ^ e`: 24 significant
bits, and never below -149 (gradual underflow). -/
def roundExp (a : Nat) (e : Int) : Int := max ((bitLength a : Int) + e - 24) (-149)

/-- The significand of `a * 2 ^ e` at the exponent `roundExp a e`: exact when no bit
is lost, otherwise rounded to nearest with ties to even. -/
def roundMant (a : Nat) (e : Int) : Nat :=
  if roundExp a e ≤ e then a * 2 ^ (e - roundExp a e).toNat
  else shiftRightRNE a (roundExp a e - e).toNat

/-- Rounding of the exact value `m * 2 ^ e` to binary32 (round to nearest, ties to even):
the result is `n * 2 ^ q` with `q = roundExp |m| e` and `n = roundMant |m| e`, or an
infinity when that is `2 ^ 128` or more. -/
def roundToFloat (m e : Int) : float :=
  if m = 0 then .finite 0 0
  else
    let a := m.natAbs
    let q := roundExp a e
    let n := roundMant a e
    if (bitLength n : Int) + q > 128 then .inf (decide (m < 0))
    else .finite (if m < 0 then -(n : Int) else n) q

/-- Conversion of an integer to `float`. -/
def float.ofInt (n : Int) : float := roundToFloat n 0

/-- The `float` product `x * y`. -/
def float.mul : float → float → float
  | .finite m1 e1, .finite m2 e2 => roundToFloat (m1 * m2) (e1 + e2)
  | .finite m _, .inf s => if m = 0 then .nan else .inf (decide (m < 0) != s)
  | .inf s, .finite m _ => if m = 0 then .nan else .inf (s != decide (m < 0))
  | .inf s1, .inf s2 => .inf (s1 != s2)
  | _, _ => .nan

/-- The `float` comparison `x > y`; false whenever a NaN is involved. -/
def float.gt : float → float → Bool
  | .finite m1 e1, .finite m2 e2 =>
    decide (m1 * 2 ^ (e1 - min e1 e2).toNat > m2 * 2 ^ (e2 - min e1 e2).toNat)
  | .finite _ _, .inf s => s
  | .inf s, .finite _ _ => !s
  | .inf s1, .inf s2 => !s1 && s2
  | _, _ => false

/-- The conversion `static_cast<std::uint8_t>(x)`: the value with its fraction cut off
(rounded toward zero). C++ leaves the conversion undefined when the cut value is not in
0..255; there the model takes what the x86-64 build does, a conversion to a 32-bit integer
(`cvttss2si`, giving the pattern 0x80000000 for a NaN, an infinity or a value outside the
32-bit range) of which the low byte is kept. -/
def float.toUint8 : float → uint8_t
  | .finite m e =>
    let t : Int := if 0 ≤ e then m * 2 ^ e.toNat else Int.tdiv m (2 ^ (-e).toNat)
    if -2 ^ 31 ≤ t ∧ t < 2 ^ 31 then Fin.ofNat (t % 256).toNat else 0
  | _ => 0

/-- The exact value of a finite `float`, as a rational (0 for the others). Used to
state properties only. -/
def float.toRat : float → ℚ
  | .finite m e => (m : ℚ) * 2 ^ e
  | _ => 0

/-! ## Rumble -/

/-- What the `write` on the non-blocking handle meets: the handle takes up to `room` bytes,
or the call fails with the given errno. -/
inductive WriteOutcome
  | accept (room : Nat)
  | fail (errno : Nat)
  deriving DecidableEq, Repr

/-- The result of one `write(fd, data, count)`: the returned value and errno afterwards. -/
structure WriteResult where
  ret : Int
  errno : Nat

/-- The system call `write(m_fd, data, count)`: it returns the number of bytes taken, at
most `count`, leaving errno alone, or -1 with errno set. -/
def write (out : WriteOutcome) (count : Nat) (errno : Nat) : WriteResult :=
  match out with
  | .accept room => { ret := (min count room : Nat), errno := errno }
  | .fail e => { ret := -1, errno := e }

/-- What a call of `RumbleWithStrength` leaves behind: the session, the report and the
`count` argument handed to `write` (`none` when no write was issued), and the
diagnostics of lines 297 and 302. (The two `fprintf` trace lines 227 and 281 are not
recorded.) -/
structure Rumbled where
  self : DualShock3
  written : Option (List uint8_t × Nat)
  diag : List Diagnostic

/-- The byte at offset `i` of the report handed to `write`, if a write was issued. -/
def Rumbled.byte (r : Rumbled) (i : Nat) : Option uint8_t :=
  r.written.bind fun w => w.1[i]?

/-- Source lines 228-270: the initial content of the output report `data`. -/
def RumbleWithStrength.data : List uint8_t :=
  [ 0x01, 0x01,
    0x00, 0x00,
    0x00, 0x00,
    0x00, 0x00, 0x00, 0x00,
    0x02,
    0xff, 0x27, 0x10, 0x00, 0x32,
    0xff, 0x27, 0x10, 0x00, 0x32,
    0xff, 0x27, 0x10, 0x00, 0x32,
    0xff, 0x27, 0x10, 0x00, 0x32,
    0x00, 0x00, 0x00, 0x00, 0x00 ]

/-- Source lines 286-305: the write of the report and the handling of its result. -/
def RumbleWithStrength.transmit (self : DualShock3) (data : List uint8_t) (errno : Nat)
    (out : WriteOutcome) : Rumbled :=
  let w := write out OUTPUT_REPORT_DATA_LENGTH errno
  let bytes_written := w.ret
  let written := some (data, OUTPUT_REPORT_DATA_LENGTH)
  if bytes_written < OUTPUT_REPORT_DATA_LENGTH then
    if bytes_written < 0 then
      if w.errno = EAGAIN then
        { self := { self with m_no_error := false }, written := written, diag := [] }
      else
        { self := { self with m_no_error := false }, written := written,
          diag := [.write_failed w.errno] }
    else
      { self := { self with m_no_error := false }, written := written,
        diag := [.write_only_got bytes_written] }
  else
    { self := self, written := written, diag := [] }

/-- Source lines 225-306. `errno` is the value of the global on entry and `out` what the
write meets. -/
def RumbleWithStrength (self : DualShock3) (type : Nat) (strength : float) (errno : Nat)
    (out : WriteOutcome) : Rumbled :=
  let data := RumbleWithStrength.data
  match type with
  | 0 =>
    let data := data.set OUTPUT_RUMBLE_SMALL_MOTOR_DURATION 0x10
    let data := data.set OUTPUT_RUMBLE_SMALL_MOTOR_ON
      (if float.gt strength (float.ofInt 0) then 0x1 else 0x0)
    RumbleWithStrength.transmit self data errno out
  | 1 =>
    let data := data.set OUTPUT_RUMBLE_LARGE_MOTOR_DURATION 0x10
    let data := data.set OUTPUT_RUMBLE_LARGE_MOTOR_FORCE
      (float.toUint8 (float.mul strength (float.ofInt 255)))
    RumbleWithStrength.transmit self data errno out
  | _ => { self := self, written := none, diag := [] }

/-- Source lines 317-321: the call of `RumbleWithStrength(1, strength)`, and the returned
`true`. -/
def TestForce (self : DualShock3) (strength : float) (errno : Nat) (out : WriteOutcome) :
    Rumbled × Bool :=
  (RumbleWithStrength self 1 strength errno out, true)

/-! ## The other member functions -/

/-- Source lines 132-135. -/
def GetName (_self : DualShock3) : String :=
  "DualShock 3 with pressure sensitive buttons"

/-- Source lines 220-223. -/
def GetUniqueIdentifier (_self : DualShock3) : Nat := 1

/-- What `Rumble` takes from the global `g_conf`, which is declared outside this fragment:
the flag `g_conf.pad_options[pad].forcefeedback` of each pad, and the value of the
expression `g_conf.get_ff_intensity() / (1 << 7)` as it arrives in the `float` parameter
of `RumbleWithStrength`. -/
structure Config where
  forcefeedback : Nat → Bool
  scaled_ff_intensity : float

/-- Source lines 308-315. -/
def Rumble (self : DualShock3) (g_conf : Config) (type : Nat) (pad : Nat) (errno : Nat)
    (out : WriteOutcome) : Rumbled :=
  if !(g_conf.forcefeedback pad) then
    { self := self, written := none, diag := [] }
  else
    RumbleWithStrength self type g_conf.scaled_ff_intensity errno out

/-- A call of the host on a session after its construction, with what the system calls
of that call meet. -/
inductive Call
  | GetName
  | GetInput (input : gamePadValues)
  | UpdateDeviceState (handle : List ReadOutcome)
  | GetUniqueIdentifier
  | RumbleWithStrength (type : Nat) (strength : float) (errno : Nat) (out : WriteOutcome)
  | Rumble (g_conf : Config) (type : Nat) (pad : Nat) (errno : Nat) (out : WriteOutcome)
  | TestForce (strength : float) (errno : Nat) (out : WriteOutcome)

/-- The session after a call. The bodies of `GetName`, `GetInput` and
`GetUniqueIdentifier` (source lines 132-135, 137-192, 220-223) consist of `return`
statements only and assign to no member: they leave the session as it is. -/
def DualShock3.after (self : DualShock3) : Call → DualShock3
  | .GetName => self
  | .GetInput _ => self
  | .UpdateDeviceState handle => (UpdateDeviceState self handle).self
  | .GetUniqueIdentifier => self
  | .RumbleWithStrength type strength errno out =>
    (RumbleWithStrength self type strength errno out).self
  | .Rumble g_conf type pad errno out => (Rumble self g_conf type pad errno out).self
  | .TestForce strength errno out => (TestForce self strength errno out).1.self

/-! ## Enumeration -/

/-- The errno value of "operation not permitted" on Linux, the one the scan tests for. -/
def EPERM : Nat := 1

/-- The two fields of `struct hidraw_devinfo` (`<linux/hidraw.h>`) the scan compares, both
16-bit. -/
structure hidraw_devinfo where
  vendor : Int
  product : Int
  deriving DecidableEq, Repr

/-- What `open(hidraw_path, O_RDWR | O_NONBLOCK)` does: it returns a handle, or -1 with
errno set. -/
inductive OpenOutcome
  | ok (fd : Nat)
  | fail (errno : Nat)
  deriving DecidableEq, Repr

/-- What `ioctl(fd, HIDIOCGRAWINFO, &info)` does: it fills `info`, or returns -1 with
errno set. -/
inductive IoctlOutcome
  | ok (info : hidraw_devinfo)
  | fail (errno : Nat)
  deriving DecidableEq, Repr

/-- One entry that `readdir` returns, with what the calls the scan may make on it meet:
the value `snprintf` returns for its path, the outcome of `open` on that path, of the
`ioctl` on the handle and the value `close` returns for the handle. -/
structure dirent where
  d_name : List Char
  snprintf : Int
  opens : OpenOutcome
  rawinfo : IoctlOutcome
  closes : Int
  deriving DecidableEq, Repr

/-- The directory stream `opendir` returns: the entries `readdir` returns in
order, whether the `readdir` after the last of them fails (`some errno`) or reports the
end of the directory (`none`, errno untouched), and the value `closedir` returns. -/
structure DIR where
  entries : List dirent
  readdir_fail : Option Nat
  closedir : Int
  deriving DecidableEq, Repr

/-- An element of the caller's list `std::vector<std::unique_ptr<Device>>`: a session of
this driver, or a device of another kind. -/
inductive Device
  | dualshock3 (session : DualShock3)
  | other (id : Nat)

/-- The handle a device of this driver owns. -/
def Device.fd : Device → Option Int
  | .dualshock3 session => some session.m_fd
  | .other _ => none

/-- What the scan reports on the diagnostic stream. -/
inductive ScanDiagnostic
  | opendir_failed
  | snprintf_failed (result : Int)
  | open_failed (errno : Nat)
  | ioctl_failed (errno : Nat)
  | close_failed
  | readdir_failed (errno : Nat)
  | closedir_failed
  deriving DecidableEq, Repr

/-- The state of `EnumerateDualShock3s`: the caller's list, errno, and a record of the
system calls made so far: the names handed to `open`, the handles `open` returned, the
handles handed to `close`, the diagnostics, and whether the loop was left by `break`. -/
structure Scan where
  vjoysticks : List Device
  errno : Nat
  opens : List (List Char)
  fds : List Nat
  closed : List Nat
  diag : List ScanDiagnostic
  aborted : Bool

/-- The outcome of one pass through the body of the `readdir` loop. -/
inductive ScanStep
  /-- The body ends or executes `continue`: the next `readdir` follows. -/
  | next (st : Scan)
  /-- The body executes `break`. -/
  | stop (st : Scan)

/-- The state a pass through the body leaves. -/
def ScanStep.state : ScanStep → Scan
  | .next st => st
  | .stop st => st

/-- Source lines 64-105: the body of the `readdir` loop for one entry. -/
def EnumerateDualShock3s.body (st : Scan) (entry : dirent) : ScanStep :=
  if entry.d_name.take 6 = ['h', 'i', 'd', 'r', 'a', 'w'] then
    let result := entry.snprintf
    if result < 0 then
      .stop { st with diag := st.diag ++ [ScanDiagnostic.snprintf_failed result] }
    else
      let st := { st with opens := st.opens ++ [entry.d_name] }
      match entry.opens with
      | .fail e =>
        let st := { st with errno := e }
        if st.errno = EPERM then
          .next { st with errno := 0 }
        else
          .stop { st with errno := 0, diag := st.diag ++ [ScanDiagnostic.open_failed st.errno] }
      | .ok fd =>
        let st := { st with fds := st.fds ++ [fd] }
        match entry.rawinfo with
        | .fail e =>
          let st := { st with errno := e, diag := st.diag ++ [ScanDiagnostic.ioctl_failed e] }
          let result := entry.closes
          let st := { st with closed := st.closed ++ [fd] }
          let st := if result < 0 then { st with diag := st.diag ++ [ScanDiagnostic.close_failed] } else st
          .stop { st with errno := 0 }
        | .ok info =>
          if info.vendor = 0x054c ∧ info.product = 0x0268 ∧ st.vjoysticks.length < 1 then
            .next { st with
              vjoysticks := st.vjoysticks ++ [Device.dualshock3 (DualShock3.new fd)] }
          else
            .next st
  else
    .next st

/-- Source lines 62-106: the `readdir` loop over the entries of the directory. -/
def EnumerateDualShock3s.loop (st : Scan) : List dirent → Scan
  | [] => st
  | entry :: rest =>
    match EnumerateDualShock3s.body st entry with
    | .next st => EnumerateDualShock3s.loop st rest
    | .stop st => { st with aborted := true }

/-- Source lines 50-115. `dev_dir` is what `opendir("/dev")` returns (`none` for a null
pointer); errno on entry plays no part, it is only read after line 61 has cleared it. -/
def EnumerateDualShock3s (vjoysticks : List Device) (dev_dir : Option DIR) : Scan :=
  match dev_dir with
  | none =>
    { vjoysticks := vjoysticks, errno := 0, opens := [], fds := [], closed := [],
      diag := [ScanDiagnostic.opendir_failed], aborted := false }
  | some dir =>
    let st := EnumerateDualShock3s.loop
      { vjoysticks := vjoysticks, errno := 0, opens := [], fds := [], closed := [], diag := [],
        aborted := false } dir.entries
    let st :=
      if st.aborted then st
      else
        match dir.readdir_fail with
        | some e => { st with errno := e }
        | none => st
    let st :=
      if !st.aborted ∧ st.errno ≠ 0 then
        { st with diag := st.diag ++ [ScanDiagnostic.readdir_failed st.errno] }
      else st
    if dir.closedir < 0 then { st with diag := st.diag ++ [ScanDiagnostic.closedir_failed] } else st

/-- The handle of an entry that has the raw-HID name prefix, opens, and reports the
identity of the controller (vendor 0x054c, product 0x0268); `none` for any other entry.
Used to state properties only. -/
def dirent.target (entry : dirent) : Option Nat :=
  match entry.opens, entry.rawinfo with
  | .ok fd, .ok info =>
    if entry.d_name.take 6 = ['h', 'i', 'd', 'r', 'a', 'w'] ∧ info.vendor = 0x054c
        ∧ info.product = 0x0268 then some fd
    else none
  | _, _ => none

/-- Whether the scan is left by `break` at this entry: it has the raw-HID name prefix and
`snprintf` fails, or `open` fails with an errno other than `EPERM`, or `open` returns a
handle and the identity query fails. Used to state properties only. -/
def dirent.breaks (entry : dirent) : Bool :=
  decide (entry.d_name.take 6 = ['h', 'i', 'd', 'r', 'a', 'w'])
    && (decide (entry.snprintf < 0)
      || match entry.opens, entry.rawinfo with
         | .fail e, _ => decide (e ≠ EPERM)
         | .ok _, .fail _ => true
         | .ok _, .ok _ => false)

/-! ## Control value extraction: properties -/

theorem toInt32_of_bounds (x : Int) (hlo : -2 ^ 31 ≤ x) (hhi : x < 2 ^ 31) : toInt32 x = x := by
  unfold toInt32
  omega

theorem ds3_axis_to_pcsx2_eq (b : uint8_t) :
    ds3_axis_to_pcsx2 b = ((b.val : Int) - 127) * 256 := by
  have hb : b.val < 256 := b.isLt
  unfold ds3_axis_to_pcsx2
  have h256 : toInt32 (1 <<< 8) = 256 := by decide
  rw [h256, toInt32_of_bounds ((b.val : Int) - 127) (by omega) (by omega)]
  exact toInt32_of_bounds _ (by omega) (by omega)

theorem byte_mem_Icc (b : uint8_t) : ((b.val : Nat) : Int) ∈ Set.Icc (0 : Int) 255 := by
  have hb : b.val < 256 := b.isLt
  constructor <;> omega

/-- C4: for every content of the report buffer `GetInput` returns, for each of the twelve
pressure controls, the byte at that control's protocol offset, unchanged and promoted to
an integer in 0..255: the directional pad reads offsets 14 (up), 15 (right), 16 (down),
17 (left); L2, R2, L1, R1, triangle, circle, cross, square read offsets 18..25. -/
theorem GetInput_pressure_passthrough (self : DualShock3) :
    (GetInput self .PAD_UP = ((self.m_report_data ⟨14, by decide⟩).val : Int)
      ∧ GetInput self .PAD_UP ∈ Set.Icc (0 : Int) 255)
    ∧ (GetInput self .PAD_RIGHT = ((self.m_report_data ⟨15, by decide⟩).val : Int)
      ∧ GetInput self .PAD_RIGHT ∈ Set.Icc (0 : Int) 255)
    ∧ (GetInput self .PAD_DOWN = ((self.m_report_data ⟨16, by decide⟩).val : Int)
      ∧ GetInput self .PAD_DOWN ∈ Set.Icc (0 : Int) 255)
    ∧ (GetInput self .PAD_LEFT = ((self.m_report_data ⟨17, by decide⟩).val : Int)
      ∧ GetInput self .PAD_LEFT ∈ Set.Icc (0 : Int) 255)
    ∧ (GetInput self .PAD_L2 = ((self.m_report_data ⟨18, by decide⟩).val : Int)
      ∧ GetInput self .PAD_L2 ∈ Set.Icc (0 : Int) 255)
    ∧ (GetInput self .PAD_R2 = ((self.m_report_data ⟨19, by decide⟩).val : Int)
      ∧ GetInput self .PAD_R2 ∈ Set.Icc (0 : Int) 255)
    ∧ (GetInput self .PAD_L1 = ((self.m_report_data ⟨20, by decide⟩).val : Int)
      ∧ GetInput self .PAD_L1 ∈ Set.Icc (0 : Int) 255)
    ∧ (GetInput self .PAD_R1 = ((self.m_report_data ⟨21, by decide⟩).val : Int)
      ∧ GetInput self .PAD_R1 ∈ Set.Icc (0 : Int) 255)
    ∧ (GetInput self .PAD_TRIANGLE = ((self.m_report_data ⟨22, by decide⟩).val : Int)
      ∧ GetInput self .PAD_TRIANGLE ∈ Set.Icc (0 : Int) 255)
    ∧ (GetInput self .PAD_CIRCLE = ((self.m_report_data ⟨23, by decide⟩).val : Int)
      ∧ GetInput self .PAD_CIRCLE ∈ Set.Icc (0 : Int) 255)
    ∧ (GetInput self .PAD_CROSS = ((self.m_report_data ⟨24, by decide⟩).val : Int)
      ∧ GetInput self .PAD_CROSS ∈ Set.Icc (0 : Int) 255)
    ∧ (GetInput self .PAD_SQUARE = ((self.m_report_data ⟨25, by decide⟩).val : Int)
      ∧ GetInput self .PAD_SQUARE ∈ Set.Icc (0 : Int) 255) :=
  ⟨⟨rfl, byte_mem_Icc _⟩, ⟨rfl, byte_mem_Icc _⟩, ⟨rfl, byte_mem_Icc _⟩, ⟨rfl, byte_mem_Icc _⟩,
   ⟨rfl, byte_mem_Icc _⟩, ⟨rfl, byte_mem_Icc _⟩, ⟨rfl, byte_mem_Icc _⟩, ⟨rfl, byte_mem_Icc _⟩,
   ⟨rfl, byte_mem_Icc _⟩, ⟨rfl, byte_mem_Icc _⟩, ⟨rfl, byte_mem_Icc _⟩, ⟨rfl, byte_mem_Icc _⟩⟩

/-- C5: for every content of the report buffer `GetInput` returns `(b - 127) * 256` for
each analog-stick control, `b` being the byte at offset 6 for left-stick left and right,
7 for left-stick up and down, 8 for right-stick left and right, 9 for right-stick up and
down; so the two logical directions of one physical axis always read the same value. -/
theorem GetInput_stick_axes (self : DualShock3) :
    (GetInput self .PAD_L_LEFT = (((self.m_report_data ⟨6, by decide⟩).val : Int) - 127) * 256
      ∧ GetInput self .PAD_L_RIGHT = (((self.m_report_data ⟨6, by decide⟩).val : Int) - 127) * 256
      ∧ GetInput self .PAD_L_UP = (((self.m_report_data ⟨7, by decide⟩).val : Int) - 127) * 256
      ∧ GetInput self .PAD_L_DOWN = (((self.m_report_data ⟨7, by decide⟩).val : Int) - 127) * 256
      ∧ GetInput self .PAD_R_LEFT = (((self.m_report_data ⟨8, by decide⟩).val : Int) - 127) * 256
      ∧ GetInput self .PAD_R_RIGHT = (((self.m_report_data ⟨8, by decide⟩).val : Int) - 127) * 256
      ∧ GetInput self .PAD_R_UP = (((self.m_report_data ⟨9, by decide⟩).val : Int) - 127) * 256
      ∧ GetInput self .PAD_R_DOWN = (((self.m_report_data ⟨9, by decide⟩).val : Int) - 127) * 256)
    ∧ GetInput self .PAD_L_UP = GetInput self .PAD_L_DOWN
    ∧ GetInput self .PAD_L_LEFT = GetInput self .PAD_L_RIGHT
    ∧ GetInput self .PAD_R_UP = GetInput self .PAD_R_DOWN
    ∧ GetInput self .PAD_R_LEFT = GetInput self .PAD_R_RIGHT := by
  refine ⟨⟨?_, ?_, ?_, ?_, ?_, ?_, ?_, ?_⟩, rfl, rfl, rfl, rfl⟩ <;>
    exact ds3_axis_to_pcsx2_eq _

/-- C6, refutation: at the byte 255 the axis transform returns 32768, which is neither
the 32640 the claim gives nor inside the signed 16-bit range (whose top is 32767). -/
theorem ds3_axis_to_pcsx2_255_counterexample :
    ds3_axis_to_pcsx2 255 = 32768
    ∧ ¬ (ds3_axis_to_pcsx2 255 = 32640)
    ∧ ¬ (-32768 ≤ ds3_axis_to_pcsx2 255 ∧ ds3_axis_to_pcsx2 255 ≤ 32767) := by
  decide

/-- C6, amended: for every byte `b` the axis transform equals `(b - 127) * 256` as a
mathematical integer (the 32-bit arithmetic of the source never wraps); it is strictly
increasing in `b`; it maps 127 to 0, 0 to -32512 and 255 to 32768; every result lies
between -32512 and 32768, one above the top of the signed 16-bit range. -/
theorem ds3_axis_to_pcsx2_spec :
    (∀ b : uint8_t, ds3_axis_to_pcsx2 b = ((b.val : Int) - 127) * 256)
    ∧ StrictMono ds3_axis_to_pcsx2
    ∧ ds3_axis_to_pcsx2 127 = 0
    ∧ ds3_axis_to_pcsx2 0 = -32512
    ∧ ds3_axis_to_pcsx2 255 = 32768
    ∧ ∀ b : uint8_t, ds3_axis_to_pcsx2 b ∈ Set.Icc (-32512 : Int) 32768 := by
  refine ⟨ds3_axis_to_pcsx2_eq, ?_, by decide, by decide, by decide, ?_⟩
  · intro a b hab
    have h : a.val < b.val := hab
    rw [ds3_axis_to_pcsx2_eq, ds3_axis_to_pcsx2_eq]
    omega
  · intro b
    have hb : b.val < 256 := b.isLt
    rw [ds3_axis_to_pcsx2_eq, Set.mem_Icc]
    constructor <;> omega

theorem and_bit_cases (d : Nat) (i : Nat) :
    (((d &&& 1 <<< i : Nat) : Int) = 0 ∨ ((d &&& 1 <<< i : Nat) : Int) = ((1 <<< i : Nat) : Int))
    ∧ (((d &&& 1 <<< i : Nat) : Int) ≠ 0 ↔ d.testBit i = true) := by
  rw [Nat.one_shiftLeft, Nat.and_two_pow]
  cases d.testBit i <;> simp

/-- C7: for every content of the report buffer, with `d` the digitals byte at offset 2,
`GetInput` returns `d AND mask` for the four digital controls, the mask being 1 for
select, 2 for L3, 4 for R3 and 8 for start; each result is 0 or exactly the mask, and it
is non-zero exactly when the corresponding bit (0, 1, 2, 3) of `d` is set. -/
theorem GetInput_digital_flags (self : DualShock3) :
    (GetInput self .PAD_SELECT = (((self.m_report_data ⟨2, by decide⟩).val &&& 1 : Nat) : Int)
      ∧ (GetInput self .PAD_SELECT = 0 ∨ GetInput self .PAD_SELECT = 1)
      ∧ (GetInput self .PAD_SELECT ≠ 0 ↔ (self.m_report_data ⟨2, by decide⟩).val.testBit 0 = true))
    ∧ (GetInput self .PAD_L3 = (((self.m_report_data ⟨2, by decide⟩).val &&& 2 : Nat) : Int)
      ∧ (GetInput self .PAD_L3 = 0 ∨ GetInput self .PAD_L3 = 2)
      ∧ (GetInput self .PAD_L3 ≠ 0 ↔ (self.m_report_data ⟨2, by decide⟩).val.testBit 1 = true))
    ∧ (GetInput self .PAD_R3 = (((self.m_report_data ⟨2, by decide⟩).val &&& 4 : Nat) : Int)
      ∧ (GetInput self .PAD_R3 = 0 ∨ GetInput self .PAD_R3 = 4)
      ∧ (GetInput self .PAD_R3 ≠ 0 ↔ (self.m_report_data ⟨2, by decide⟩).val.testBit 2 = true))
    ∧ (GetInput self .PAD_START = (((self.m_report_data ⟨2, by decide⟩).val &&& 8 : Nat) : Int)
      ∧ (GetInput self .PAD_START = 0 ∨ GetInput self .PAD_START = 8)
      ∧ (GetInput self .PAD_START ≠ 0 ↔ (self.m_report_data ⟨2, by decide⟩).val.testBit 3 = true)) :=
  ⟨⟨rfl, and_bit_cases _ 0⟩, ⟨rfl, and_bit_cases _ 1⟩, ⟨rfl, and_bit_cases _ 2⟩,
    ⟨rfl, and_bit_cases _ 3⟩⟩

/-! ## State refresh -/

/-- The buffer after a read of `count` bytes has taken the report `bytes`. -/
theorem read_report_buf (bytes : List uint8_t) (buf : Fin INPUT_REPORT_DATA_LENGTH → uint8_t)
    (count errno : Nat) (i : Fin INPUT_REPORT_DATA_LENGTH) :
    (read (some (.report bytes)) buf count errno).buf i
      = if i.val < count then bytes.getD i.val (buf i) else buf i := rfl

/-- A queued report of at least 36 bytes sends the drain loop round again, with the first
36 bytes of the buffer overwritten and nothing else changed. -/
theorem body_full_report (self : DualShock3) (errno : Nat) (bytes : List uint8_t)
    (h : OUTPUT_REPORT_DATA_LENGTH ≤ bytes.length) :
    UpdateDeviceState.body self errno (some (.report bytes))
      = .again { self with m_report_data :=
          (read (some (.report bytes)) self.m_report_data OUTPUT_REPORT_DATA_LENGTH errno).buf }
          errno := by
  have hmin : min OUTPUT_REPORT_DATA_LENGTH bytes.length = OUTPUT_REPORT_DATA_LENGTH :=
    Nat.min_eq_left h
  simp only [UpdateDeviceState.body, read, hmin]
  simp [OUTPUT_REPORT_DATA_LENGTH]

/-- A queued report of fewer than 36 bytes ends the call at once with the flag set. -/
theorem body_short_report (self : DualShock3) (errno : Nat) (bytes : List uint8_t)
    (h : bytes.length < OUTPUT_REPORT_DATA_LENGTH) :
    UpdateDeviceState.body self errno (some (.report bytes))
      = .done { self with
          m_report_data :=
            (read (some (.report bytes)) self.m_report_data OUTPUT_REPORT_DATA_LENGTH errno).buf
          m_no_error := false }
          [.read_only_got bytes.length] := by
  have hmin : min OUTPUT_REPORT_DATA_LENGTH bytes.length = bytes.length :=
    Nat.min_eq_right (Nat.le_of_lt h)
  have h1 : ((bytes.length : Nat) : Int) < (OUTPUT_REPORT_DATA_LENGTH : Int) := by
    exact_mod_cast h
  have h2 : ((bytes.length : Nat) : Int) > -1 := by omega
  simp only [UpdateDeviceState.body, read, hmin]
  rw [if_pos ⟨h1, h2⟩]

/-- An empty queue ends the drain with nothing changed. -/
theorem body_would_block (self : DualShock3) (errno : Nat) :
    UpdateDeviceState.body self errno none = .done self [] := by
  simp [UpdateDeviceState.body, read, OUTPUT_REPORT_DATA_LENGTH]

/-- Draining a queue of reports that are each at least 36 bytes long: one read per report
and one more that would block, no diagnostic, the flag and the handle as before, and the
buffer holding the first 36 bytes of the last report over the bytes 36..48 it had. -/
theorem UpdateDeviceState_loop_full_reports (rs : List (List uint8_t))
    (h : ∀ r ∈ rs, OUTPUT_REPORT_DATA_LENGTH ≤ r.length) (self : DualShock3) (errno : Nat) :
    (UpdateDeviceState.loop self errno (rs.map .report)).reads
        = List.replicate (rs.length + 1) OUTPUT_REPORT_DATA_LENGTH
    ∧ (UpdateDeviceState.loop self errno (rs.map .report)).diag = []
    ∧ (UpdateDeviceState.loop self errno (rs.map .report)).pending = []
    ∧ (UpdateDeviceState.loop self errno (rs.map .report)).self.m_no_error = self.m_no_error
    ∧ (UpdateDeviceState.loop self errno (rs.map .report)).self.m_fd = self.m_fd
    ∧ ∀ i : Fin INPUT_REPORT_DATA_LENGTH,
        (UpdateDeviceState.loop self errno (rs.map .report)).self.m_report_data i
          = match rs.getLast? with
            | none => self.m_report_data i
            | some last =>
              if i.val < OUTPUT_REPORT_DATA_LENGTH then last.getD i.val 0
              else self.m_report_data i := by
  induction rs generalizing self errno with
  | nil =>
    simp [UpdateDeviceState.loop, body_would_block]
  | cons r rest ih =>
    have hr : OUTPUT_REPORT_DATA_LENGTH ≤ r.length := h r (List.mem_cons_self _ _)
    have hrest : ∀ x ∈ rest, OUTPUT_REPORT_DATA_LENGTH ≤ x.length :=
      fun x hx => h x (List.mem_cons_of_mem _ hx)
    obtain ⟨h1, h2, h3, h4, h5, h6⟩ := ih hrest
      { self with m_report_data :=
          (read (some (.report r)) self.m_report_data OUTPUT_REPORT_DATA_LENGTH errno).buf }
      errno
    simp only [List.map_cons, UpdateDeviceState.loop, body_full_report self errno r hr,
      List.length_cons]
    refine ⟨?_, h2, h3, h4, h5, ?_⟩
    · rw [h1]; rfl
    · intro i
      rw [h6 i]
      cases rest with
      | nil =>
        simp only [List.getLast?_nil, List.getLast?_singleton, read_report_buf]
        split
        · rename_i hi
          have : i.val < r.length := Nat.lt_of_lt_of_le hi hr
          simp [List.getD_eq_getElem?_getD, List.getElem?_eq_getElem this]
        · rfl
      | cons r2 rest2 =>
        simp only [List.getLast?_cons_cons, read_report_buf]
        cases hl : (r2 :: rest2).getLast? with
        | none => simp at hl
        | some last =>
          simp only
          split
          · rfl
          · rfl


/-- Every read of the drain loop asks for `OUTPUT_REPORT_DATA_LENGTH` bytes, and the loop
issues at least one. -/
theorem UpdateDeviceState_loop_reads (handle : List ReadOutcome) (self : DualShock3)
    (errno : Nat) :
    ∃ k, (UpdateDeviceState.loop self errno handle).reads
      = List.replicate (k + 1) OUTPUT_REPORT_DATA_LENGTH := by
  induction handle generalizing self errno with
  | nil =>
    refine ⟨0, ?_⟩
    simp only [UpdateDeviceState.loop]
    split <;> rfl
  | cons o rest ih =>
    simp only [UpdateDeviceState.loop]
    split
    · exact ⟨0, rfl⟩
    · rename_i s e _
      obtain ⟨k, hk⟩ := ih s e
      exact ⟨k + 1, by rw [hk]; rfl⟩

/-- C1, the code at the specification's own test: three full 49-byte reports (all 1s, all
2s, all 3s) are queued on a fresh session, then the handle would block. The call issues
four reads and leaves the flag alone, but the buffer does not hold the last report: only
its first 36 bytes arrive, bytes 36..48 keep their old content (zero). -/
theorem UpdateDeviceState_three_reports_keeps_36_bytes :
    (UpdateDeviceState (DualShock3.new 3)
        [.report (List.replicate 49 1), .report (List.replicate 49 2),
         .report (List.replicate 49 3)]).reads.length = 4
    ∧ (UpdateDeviceState (DualShock3.new 3)
        [.report (List.replicate 49 1), .report (List.replicate 49 2),
         .report (List.replicate 49 3)]).self.m_no_error = true
    ∧ List.ofFn (UpdateDeviceState (DualShock3.new 3)
        [.report (List.replicate 49 1), .report (List.replicate 49 2),
         .report (List.replicate 49 3)]).self.m_report_data
        = List.replicate 36 3 ++ List.replicate 13 0
    ∧ List.ofFn (UpdateDeviceState (DualShock3.new 3)
        [.report (List.replicate 49 1), .report (List.replicate 49 2),
         .report (List.replicate 49 3)]).self.m_report_data
        ≠ List.replicate 49 3 := by
  decide

/-- C2, the code on every input: each read `UpdateDeviceState` issues asks for 36 bytes
(`OUTPUT_REPORT_DATA_LENGTH`), never the 49 of `INPUT_REPORT_DATA_LENGTH`; and 36 is the
length a result is compared with: a read that returns 36 bytes goes round the loop again,
one that returns 35 is the short read. -/
theorem UpdateDeviceState_reads_request_36 (self : DualShock3) (handle : List ReadOutcome) :
    (UpdateDeviceState self handle).reads
        = List.replicate (UpdateDeviceState self handle).reads.length 36
    ∧ (UpdateDeviceState self handle).reads ≠ []
    ∧ INPUT_REPORT_DATA_LENGTH = 49
    ∧ (UpdateDeviceState (DualShock3.new 3) [.report (List.replicate 36 7)]).reads = [36, 36]
    ∧ (UpdateDeviceState (DualShock3.new 3) [.report (List.replicate 36 7)]).diag = []
    ∧ (UpdateDeviceState (DualShock3.new 3) [.report (List.replicate 35 7)]).diag
        = [.read_only_got 35] := by
  obtain ⟨k, hk⟩ := UpdateDeviceState_loop_reads handle self 0
  refine ⟨?_, ?_, rfl, by decide, by decide, by decide⟩
  · unfold UpdateDeviceState
    rw [hk, List.length_replicate]
    rfl
  · unfold UpdateDeviceState
    rw [hk]
    simp [List.replicate_succ]

/-- C3, the code at `k = 36`: a read that completes without error and returns 36 bytes,
fewer than the 49 of an input report, does not set the error flag and is followed by
another read; no diagnostic is printed. (The device here delivers a 40-byte report, of
which the 36 requested bytes are returned.) -/
theorem UpdateDeviceState_36_byte_read_not_short :
    (read (some (.report (List.replicate 40 7))) (DualShock3.new 3).m_report_data
        OUTPUT_REPORT_DATA_LENGTH 0).ret = 36
    ∧ (UpdateDeviceState (DualShock3.new 3) [.report (List.replicate 40 7)]).self.m_no_error
        = true
    ∧ (UpdateDeviceState (DualShock3.new 3) [.report (List.replicate 40 7)]).reads.length = 2
    ∧ (UpdateDeviceState (DualShock3.new 3) [.report (List.replicate 40 7)]).diag = [] := by
  decide

/-! ## Floating point: properties of the rounding -/

theorem bitLengthAux_zero (fuel : Nat) : bitLengthAux fuel 0 = 0 := by
  cases fuel <;> simp [bitLengthAux]

theorem two_pow_le_of_bitLengthAux (fuel a : Nat) (hfuel : a ≤ fuel) (ha : a ≠ 0) :
    2 ^ (bitLengthAux fuel a - 1) ≤ a := by
  induction fuel generalizing a with
  | zero => omega
  | succ fuel ih =>
    simp only [bitLengthAux, if_neg ha, Nat.add_sub_cancel]
    by_cases h2 : a / 2 = 0
    · rw [h2, bitLengthAux_zero]
      simp only [pow_zero]
      omega
    · have hle : a / 2 ≤ fuel := by omega
      have ih2 := ih (a / 2) hle h2
      have hpos : 1 ≤ bitLengthAux fuel (a / 2) := by
        cases fuel with
        | zero => omega
        | succ f => simp only [bitLengthAux, if_neg h2]; omega
      have hpow : 2 ^ bitLengthAux fuel (a / 2) = 2 * 2 ^ (bitLengthAux fuel (a / 2) - 1) := by
        rw [← pow_succ']
        congr 1
        omega
      rw [hpow]
      omega

/-- The leading bit: `2 ^ (bitLength a - 1) ≤ a` for a non-zero `a`. -/
theorem two_pow_le_of_bitLength (a : Nat) (ha : a ≠ 0) : 2 ^ (bitLength a - 1) ≤ a :=
  two_pow_le_of_bitLengthAux a a (Nat.le_refl a) ha

theorem bitLength_pos (a : Nat) (ha : a ≠ 0) : 1 ≤ bitLength a := by
  unfold bitLength
  cases a with
  | zero => exact absurd rfl ha
  | succ n => simp only [bitLengthAux, if_neg ha]; omega

/-- Rounding to nearest does not cross a grid point from below. -/
theorem shiftRightRNE_le (a k N : Nat) (h : a ≤ N * 2 ^ k) : shiftRightRNE a k ≤ N := by
  have hpos : 0 < 2 ^ k := Nat.two_pow_pos k
  have hq : a / 2 ^ k ≤ N := by
    calc a / 2 ^ k ≤ N * 2 ^ k / 2 ^ k := Nat.div_le_div_right h
      _ = N := Nat.mul_div_cancel _ hpos
  have hdm : 2 ^ k * (a / 2 ^ k) + a % 2 ^ k = a := Nat.div_add_mod a (2 ^ k)
  by_cases hN : a / 2 ^ k = N
  · have hr : a % 2 ^ k = 0 := by
      rw [hN, Nat.mul_comm] at hdm
      omega
    simp only [shiftRightRNE, hr, hN]
    rw [if_pos (by omega)]
  · have hlt : a / 2 ^ k + 1 ≤ N := by omega
    simp only [shiftRightRNE]
    split
    · omega
    · split
      · omega
      · split <;> omega

/-- Rounding to nearest does not cross a grid point from above. -/
theorem le_shiftRightRNE (a k N : Nat) (h : N * 2 ^ k ≤ a) : N ≤ shiftRightRNE a k := by
  have hpos : 0 < 2 ^ k := Nat.two_pow_pos k
  have hq : N ≤ a / 2 ^ k := (Nat.le_div_iff_mul_le hpos).2 h
  simp only [shiftRightRNE]
  split
  · omega
  · split
    · omega
    · split <;> omega

theorem two_zpow_toNat (d : Int) (hd : 0 ≤ d) : ((2 ^ d.toNat : Nat) : ℚ) = (2 : ℚ) ^ d := by
  rw [Nat.cast_pow, Nat.cast_ofNat, ← zpow_natCast, Int.toNat_of_nonneg hd]

theorem mul_two_zpow_add (x : ℚ) (d p : Int) : x * 2 ^ d * 2 ^ p = x * 2 ^ (d + p) := by
  rw [mul_assoc, ← zpow_add₀ (two_ne_zero)]

theorem two_zpow_pos (d : Int) : (0 : ℚ) < 2 ^ d := zpow_pos (by norm_num) d

/-- A bound on the value bounds the position of the leading bit. -/
theorem leading_bit_lt (x : Nat) (q j : Int) (hx : x ≠ 0) (h : (x : ℚ) * 2 ^ q < 2 ^ j) :
    (bitLength x : Int) - 1 + q < j := by
  have hlead : ((2 ^ (bitLength x - 1) : Nat) : ℚ) ≤ (x : ℚ) := by
    exact_mod_cast two_pow_le_of_bitLength x hx
  have hpos := bitLength_pos x hx
  have h1 : (2 : ℚ) ^ (((bitLength x : Int) - 1) + q) ≤ (x : ℚ) * 2 ^ q := by
    rw [zpow_add₀ (two_ne_zero)]
    apply mul_le_mul_of_nonneg_right _ (le_of_lt (two_zpow_pos q))
    have hc : ((bitLength x : Int) - 1) = ((bitLength x - 1 : Nat) : Int) := by omega
    rw [hc, zpow_natCast]
    exact_mod_cast hlead
  exact (zpow_lt_zpow_iff_right₀ (by norm_num)).1 (lt_of_le_of_lt h1 h)

/-- A bound on the value bounds the exponent of the last place. -/
theorem roundExp_le (a : Nat) (e j : Int) (ha : a ≠ 0) (h : (a : ℚ) * 2 ^ e < 2 ^ j) :
    roundExp a e ≤ max (j - 24) (-149) := by
  have h3 := leading_bit_lt a e j ha h
  unfold roundExp
  omega

/-- When no bit is lost the rounded significand denotes the same value. -/
theorem roundMant_exact (a : Nat) (e : Int) (h : roundExp a e ≤ e) :
    (roundMant a e : ℚ) * 2 ^ roundExp a e = (a : ℚ) * 2 ^ e := by
  unfold roundMant
  rw [if_pos h, Nat.cast_mul, two_zpow_toNat _ (by omega), mul_two_zpow_add]
  congr 2
  omega

/-- Rounding does not carry a value above a bound that is itself on the grid of the last
place. -/
theorem roundMant_le (a : Nat) (e : Int) (C : Nat) (s : Int) (hs : roundExp a e ≤ s)
    (h : (a : ℚ) * 2 ^ e ≤ (C : ℚ) * 2 ^ s) :
    (roundMant a e : ℚ) * 2 ^ roundExp a e ≤ (C : ℚ) * 2 ^ s := by
  by_cases hq : roundExp a e ≤ e
  · rw [roundMant_exact a e hq]; exact h
  · have hq2 : e < roundExp a e := by omega
    have hgrid : (a : ℚ) ≤ ((C * 2 ^ (s - roundExp a e).toNat * 2 ^ (roundExp a e - e).toNat
        : Nat) : ℚ) := by
      rw [Nat.cast_mul, Nat.cast_mul, two_zpow_toNat _ (by omega), two_zpow_toNat _ (by omega),
        mul_two_zpow_add]
      have h5 : (a : ℚ) * 2 ^ e * 2 ^ (-e) ≤ (C : ℚ) * 2 ^ s * 2 ^ (-e) :=
        mul_le_mul_of_nonneg_right h (le_of_lt (two_zpow_pos _))
      rw [mul_two_zpow_add, mul_two_zpow_add, add_neg_cancel, zpow_zero, mul_one] at h5
      have h6 : s - roundExp a e + (roundExp a e - e) = s + -e := by omega
      rw [h6]
      exact h5
    have hN := shiftRightRNE_le a (roundExp a e - e).toNat
      (C * 2 ^ (s - roundExp a e).toNat) (by exact_mod_cast hgrid)
    have hNq : (roundMant a e : ℚ) ≤ ((C * 2 ^ (s - roundExp a e).toNat : Nat) : ℚ) := by
      unfold roundMant
      rw [if_neg hq]
      exact_mod_cast hN
    calc (roundMant a e : ℚ) * 2 ^ roundExp a e
        ≤ ((C * 2 ^ (s - roundExp a e).toNat : Nat) : ℚ) * 2 ^ roundExp a e :=
          mul_le_mul_of_nonneg_right hNq (le_of_lt (two_zpow_pos _))
      _ = (C : ℚ) * 2 ^ s := by
          rw [Nat.cast_mul, two_zpow_toNat _ (by omega), mul_two_zpow_add]
          congr 2
          omega

/-- Rounding does not carry a value below a bound that is itself on the grid of the last
place. -/
theorem le_roundMant (a : Nat) (e : Int) (C : Nat) (s : Int) (hs : roundExp a e ≤ s)
    (h : (C : ℚ) * 2 ^ s ≤ (a : ℚ) * 2 ^ e) :
    (C : ℚ) * 2 ^ s ≤ (roundMant a e : ℚ) * 2 ^ roundExp a e := by
  by_cases hq : roundExp a e ≤ e
  · rw [roundMant_exact a e hq]; exact h
  · have hq2 : e < roundExp a e := by omega
    have hgrid : ((C * 2 ^ (s - roundExp a e).toNat * 2 ^ (roundExp a e - e).toNat
        : Nat) : ℚ) ≤ (a : ℚ) := by
      rw [Nat.cast_mul, Nat.cast_mul, two_zpow_toNat _ (by omega), two_zpow_toNat _ (by omega),
        mul_two_zpow_add]
      have h5 : (C : ℚ) * 2 ^ s * 2 ^ (-e) ≤ (a : ℚ) * 2 ^ e * 2 ^ (-e) :=
        mul_le_mul_of_nonneg_right h (le_of_lt (two_zpow_pos _))
      rw [mul_two_zpow_add, mul_two_zpow_add, add_neg_cancel, zpow_zero, mul_one] at h5
      have h6 : s - roundExp a e + (roundExp a e - e) = s + -e := by omega
      rw [h6]
      exact h5
    have hN := le_shiftRightRNE a (roundExp a e - e).toNat
      (C * 2 ^ (s - roundExp a e).toNat) (by exact_mod_cast hgrid)
    have hNq : ((C * 2 ^ (s - roundExp a e).toNat : Nat) : ℚ) ≤ (roundMant a e : ℚ) := by
      unfold roundMant
      rw [if_neg hq]
      exact_mod_cast hN
    calc (C : ℚ) * 2 ^ s
        = ((C * 2 ^ (s - roundExp a e).toNat : Nat) : ℚ) * 2 ^ roundExp a e := by
          rw [Nat.cast_mul, two_zpow_toNat _ (by omega), mul_two_zpow_add]
          congr 2
          omega
      _ ≤ (roundMant a e : ℚ) * 2 ^ roundExp a e :=
          mul_le_mul_of_nonneg_right hNq (le_of_lt (two_zpow_pos _))

/-- The leading bit of a value below `2 ^ j`, zero included. -/
theorem bitLength_add_le (x : Nat) (q j : Int) (h : (x : ℚ) * 2 ^ q < 2 ^ j) (hj : q ≤ j) :
    (bitLength x : Int) + q ≤ j := by
  by_cases hx : x = 0
  · subst hx
    have : bitLength 0 = 0 := rfl
    rw [this]
    omega
  · have h3 := leading_bit_lt x q j hx h
    omega

/-- Rounding a positive value of at most 255: the result is finite, its last place is
`2 ^ (-16)` or finer, and it is still at most 255. -/
theorem roundToFloat_le_255 (P e : Int) (hP : 0 < P) (h : (P : ℚ) * 2 ^ e ≤ 255) :
    roundToFloat P e = .finite (roundMant P.natAbs e) (roundExp P.natAbs e)
    ∧ roundExp P.natAbs e ≤ -16
    ∧ (roundMant P.natAbs e : ℚ) * 2 ^ roundExp P.natAbs e ≤ 255 := by
  have hcast : ((P.natAbs : Nat) : ℚ) = (P : ℚ) := by
    rw [← Int.cast_natCast, Int.natAbs_of_nonneg (le_of_lt hP)]
  have ha : P.natAbs ≠ 0 := by omega
  have hlt : ((P.natAbs : Nat) : ℚ) * 2 ^ e < 2 ^ (8 : Int) := by
    rw [hcast]
    exact lt_of_le_of_lt h (by norm_num)
  have hq : roundExp P.natAbs e ≤ -16 := by
    have := roundExp_le P.natAbs e 8 ha hlt
    omega
  have hv : (roundMant P.natAbs e : ℚ) * 2 ^ roundExp P.natAbs e ≤ 255 := by
    have := roundMant_le P.natAbs e 255 0 (by omega) (by rw [hcast]; simpa using h)
    simpa using this
  have hbl : (bitLength (roundMant P.natAbs e) : Int) + roundExp P.natAbs e ≤ 8 :=
    bitLength_add_le _ _ 8 (lt_of_le_of_lt hv (by norm_num)) (by omega)
  refine ⟨?_, hq, hv⟩
  unfold roundToFloat
  rw [if_neg (by omega : ¬ P = 0)]
  simp only
  rw [if_neg (by omega), if_neg (by omega)]

/-- The conversion to a byte of a non-negative finite value of at most 255 whose last
place is a unit or finer is its integer part. -/
theorem toUint8_eq_floor (n : Nat) (q : Int) (hq : q ≤ 0) (h : (n : ℚ) * 2 ^ q ≤ 255) :
    ((float.toUint8 (.finite n q)).val : Int) = ⌊(n : ℚ) * 2 ^ q⌋ := by
  have hval : (n : ℚ) * 2 ^ q = (n : ℚ) / ((2 ^ (-q).toNat : Nat) : ℚ) := by
    rw [two_zpow_toNat _ (by omega), div_eq_mul_inv, ← zpow_neg, neg_neg]
  have hfloor : ⌊(n : ℚ) * 2 ^ q⌋ = ((n / 2 ^ (-q).toNat : Nat) : Int) := by
    rw [hval, Rat.floor_natCast_div_natCast]
    norm_cast
  have hle : ((n / 2 ^ (-q).toNat : Nat) : ℚ) ≤ 255 := by
    have h1 : ((⌊(n : ℚ) * 2 ^ q⌋ : Int) : ℚ) ≤ (n : ℚ) * 2 ^ q := Int.floor_le _
    rw [hfloor] at h1
    exact le_trans (by exact_mod_cast h1) h
  have hle2 : n / 2 ^ (-q).toNat ≤ 255 := by exact_mod_cast hle
  have ht : (if 0 ≤ q then (n : Int) * 2 ^ q.toNat else Int.tdiv (n : Int) (2 ^ (-q).toNat))
      = ((n / 2 ^ (-q).toNat : Nat) : Int) := by
    by_cases h0 : 0 ≤ q
    · have : q = 0 := by omega
      subst this
      simp
    · rw [if_neg h0]
      rw [Int.tdiv_eq_ediv (by omega) (by positivity)]
      norm_cast
  rw [hfloor]
  simp only [float.toUint8]
  rw [ht]
  clear ht hle hfloor hval h
  generalize n / 2 ^ (-q).toNat = k at hle2 ⊢
  have hr : -2 ^ 31 ≤ (k : Int) ∧ (k : Int) < 2 ^ 31 := by
    constructor <;> omega
  rw [if_pos hr]
  simp only [Fin.ofNat]
  omega

/-! ## Rumble: properties -/

theorem ofInt_255 : float.ofInt 255 = .finite 16711680 (-16) := by decide

theorem ofInt_0 : float.ofInt 0 = .finite 0 0 := by decide

/-- The value of the exact product that `strength * 255` rounds. -/
theorem product_value (m e : Int) :
    ((m * 16711680 : Int) : ℚ) * 2 ^ (e + -16) = (m : ℚ) * 2 ^ e * 255 := by
  rw [zpow_add₀ (two_ne_zero)]
  push_cast
  have : (2 : ℚ) ^ (-16 : Int) = 1 / 65536 := by norm_num [zpow_neg]
  rw [this]
  ring

/-- The float product `strength * 255` for a strength in [0,1]: a non-negative finite
value of at most 255, with last place `2 ^ (-16)` or finer (or zero), that lies on the same
side as the exact product of every multiple of `2 ^ (-16)`. -/
theorem strength_times_255 (m e : Int) (h0 : 0 ≤ (m : ℚ) * 2 ^ e) (h1 : (m : ℚ) * 2 ^ e ≤ 1) :
    ∃ (n : Nat) (q : Int),
      float.mul (.finite m e) (float.ofInt 255) = .finite n q
      ∧ q ≤ 0
      ∧ (n : ℚ) * 2 ^ q ≤ 255
      ∧ (∀ (C : Nat) (s : Int), -16 ≤ s → (C : ℚ) * 2 ^ s ≤ (m : ℚ) * 2 ^ e * 255 →
          (C : ℚ) * 2 ^ s ≤ (n : ℚ) * 2 ^ q)
      ∧ (∀ (C : Nat) (s : Int), -16 ≤ s → (m : ℚ) * 2 ^ e * 255 ≤ (C : ℚ) * 2 ^ s →
          (n : ℚ) * 2 ^ q ≤ (C : ℚ) * 2 ^ s) := by
  have hm : 0 ≤ m := by
    by_contra hneg
    have : (m : ℚ) < 0 := by exact_mod_cast (not_le.1 hneg)
    have := mul_neg_of_neg_of_pos this (two_zpow_pos e)
    linarith
  have hmul : float.mul (.finite m e) (float.ofInt 255)
      = roundToFloat (m * 16711680) (e + -16) := by
    rw [ofInt_255]; rfl
  by_cases hz : m = 0
  · subst hz
    refine ⟨0, 0, ?_, le_refl _, by norm_num, ?_, ?_⟩
    · rw [hmul]; simp [roundToFloat]
    · intro C s _ hC
      simpa using hC
    · intro C s _ hC
      simpa using hC
  · have hP : 0 < m * 16711680 := by omega
    have hPv : ((m * 16711680 : Int) : ℚ) * 2 ^ (e + -16) ≤ 255 := by
      rw [product_value]; linarith
    have hcast : (((m * 16711680).natAbs : Nat) : ℚ) = ((m * 16711680 : Int) : ℚ) := by
      rw [← Int.cast_natCast, Int.natAbs_of_nonneg (le_of_lt hP)]
    obtain ⟨hfin, hq, hv⟩ := roundToFloat_le_255 (m * 16711680) (e + -16) hP hPv
    refine ⟨_, _, hmul.trans hfin, by omega, hv, ?_, ?_⟩
    · intro C s hs hC
      apply le_roundMant _ _ C s (by omega)
      rw [hcast, product_value]
      exact hC
    · intro C s hs hC
      apply roundMant_le _ _ C s (by omega)
      rw [hcast, product_value]
      exact hC

/-- The report handed to `write` for the large motor. -/
theorem RumbleWithStrength_large_written (self : DualShock3) (strength : float) (errno : Nat)
    (out : WriteOutcome) :
    (RumbleWithStrength self 1 strength errno out).written
      = some ((RumbleWithStrength.data.set OUTPUT_RUMBLE_LARGE_MOTOR_DURATION 0x10).set
          OUTPUT_RUMBLE_LARGE_MOTOR_FORCE (float.toUint8 (float.mul strength (float.ofInt 255))),
          OUTPUT_REPORT_DATA_LENGTH) := by
  simp only [RumbleWithStrength, RumbleWithStrength.transmit]
  split_ifs <;> rfl

/-- The report handed to `write` for the small motor. -/
theorem RumbleWithStrength_small_written (self : DualShock3) (strength : float) (errno : Nat)
    (out : WriteOutcome) :
    (RumbleWithStrength self 0 strength errno out).written
      = some ((RumbleWithStrength.data.set OUTPUT_RUMBLE_SMALL_MOTOR_DURATION 0x10).set
          OUTPUT_RUMBLE_SMALL_MOTOR_ON
            (if float.gt strength (float.ofInt 0) then 0x1 else 0x0),
          OUTPUT_REPORT_DATA_LENGTH) := by
  simp only [RumbleWithStrength, RumbleWithStrength.transmit]
  split_ifs <;> rfl

theorem RumbleWithStrength_large_bytes (self : DualShock3) (strength : float) (errno : Nat)
    (out : WriteOutcome) :
    (RumbleWithStrength self 1 strength errno out).byte 4 = some 0x10
    ∧ (RumbleWithStrength self 1 strength errno out).byte 5
        = some (float.toUint8 (float.mul strength (float.ofInt 255))) := by
  simp only [Rumbled.byte, RumbleWithStrength_large_written]
  exact ⟨rfl, rfl⟩

theorem RumbleWithStrength_small_bytes (self : DualShock3) (strength : float) (errno : Nat)
    (out : WriteOutcome) :
    (RumbleWithStrength self 0 strength errno out).byte 2 = some 0x10
    ∧ (RumbleWithStrength self 0 strength errno out).byte 3
        = some (if float.gt strength (float.ofInt 0) then 0x1 else 0x0) := by
  simp only [Rumbled.byte, RumbleWithStrength_small_written]
  exact ⟨rfl, rfl⟩

/-- The force byte for a strength in [0,1]: the integer part of the float product. -/
theorem force_byte_eq_floor (m e : Int) (h0 : 0 ≤ (m : ℚ) * 2 ^ e) (h1 : (m : ℚ) * 2 ^ e ≤ 1) :
    ((float.toUint8 (float.mul (.finite m e) (float.ofInt 255))).val : Int)
      = ⌊float.toRat (float.mul (.finite m e) (float.ofInt 255))⌋ := by
  obtain ⟨n, q, hmul, hq, hv, -, -⟩ := strength_times_255 m e h0 h1
  rw [hmul]
  exact toUint8_eq_floor n q hq hv

/-- The force byte when the exact product is a multiple `C * 2 ^ s` of `2 ^ (-16)`: the
float product is exact and the byte is the integer part of `C * 2 ^ s`. -/
theorem force_byte_of_exact (m e : Int) (C : Nat) (s : Int) (hs : -16 ≤ s)
    (h0 : 0 ≤ (m : ℚ) * 2 ^ e) (h1 : (m : ℚ) * 2 ^ e ≤ 1)
    (hC : (m : ℚ) * 2 ^ e * 255 = (C : ℚ) * 2 ^ s) :
    ((float.toUint8 (float.mul (.finite m e) (float.ofInt 255))).val : Int)
      = ⌊(C : ℚ) * 2 ^ s⌋ := by
  obtain ⟨n, q, hmul, hq, hv, hlo, hhi⟩ := strength_times_255 m e h0 h1
  have hval : (n : ℚ) * 2 ^ q = (C : ℚ) * 2 ^ s :=
    le_antisymm (hhi C s hs (le_of_eq hC)) (hlo C s hs (le_of_eq hC.symm))
  rw [hmul, toUint8_eq_floor n q hq hv, hval]

/-- C8, refutation: at strength 0.25, a value in [0,1] for which the float product
`0.25 * 255 = 63.75` is exact, the force byte written is 63, while 63.75 rounded to the
nearest integer is 64. -/
theorem RumbleWithStrength_force_not_rounded :
    float.toRat (.finite 1 (-2)) = 1 / 4
    ∧ float.toRat (float.mul (.finite 1 (-2)) (float.ofInt 255)) = 255 / 4
    ∧ round ((1 / 4 : ℚ) * 255) = 64
    ∧ (RumbleWithStrength (DualShock3.new 3) 1 (.finite 1 (-2)) 0 (.accept 36)).byte 5
        = some 63 := by
  refine ⟨?_, ?_, ?_, by decide⟩
  · norm_num [float.toRat, zpow_neg]
  · have : float.mul (.finite 1 (-2)) (float.ofInt 255) = .finite 16711680 (-18) := by decide
    rw [this]
    norm_num [float.toRat, zpow_neg]
  · rw [round_eq, Int.floor_eq_iff]
    norm_num

/-- C8, amended: for every strength in [0,1] the report `RumbleWithStrength(1, strength)`
hands to `write` has 0x10 at offset 4, and at offset 5 the float product `strength * 255`
with its fraction cut off (rounded toward zero, not to nearest): the byte is the integer
part of the float product, and it lies between the integer part of the exact product and
that product rounded up. -/
theorem RumbleWithStrength_large_force_truncated (self : DualShock3) (m e : Int) (errno : Nat)
    (out : WriteOutcome) (h0 : 0 ≤ (m : ℚ) * 2 ^ e) (h1 : (m : ℚ) * 2 ^ e ≤ 1) :
    (RumbleWithStrength self 1 (.finite m e) errno out).byte 4 = some 0x10
    ∧ ∃ b : uint8_t, (RumbleWithStrength self 1 (.finite m e) errno out).byte 5 = some b
        ∧ (b.val : Int) = ⌊float.toRat (float.mul (.finite m e) (float.ofInt 255))⌋
        ∧ ⌊(m : ℚ) * 2 ^ e * 255⌋ ≤ (b.val : Int)
        ∧ (b.val : Int) ≤ ⌈(m : ℚ) * 2 ^ e * 255⌉ := by
  obtain ⟨hb4, hb5⟩ := RumbleWithStrength_large_bytes self (.finite m e) errno out
  refine ⟨hb4, _, hb5, force_byte_eq_floor m e h0 h1, ?_, ?_⟩
  · obtain ⟨n, q, hmul, hq, hv, hlo, -⟩ := strength_times_255 m e h0 h1
    rw [hmul, toUint8_eq_floor n q hq hv, Int.le_floor]
    have hx : (0 : ℚ) ≤ (m : ℚ) * 2 ^ e * 255 := by positivity
    have hfl : 0 ≤ ⌊(m : ℚ) * 2 ^ e * 255⌋ := Int.floor_nonneg.2 hx
    have hcast : ((⌊(m : ℚ) * 2 ^ e * 255⌋.toNat : Nat) : ℚ) = (⌊(m : ℚ) * 2 ^ e * 255⌋ : ℚ) := by
      rw [← Int.cast_natCast, Int.toNat_of_nonneg hfl]
    have := hlo ⌊(m : ℚ) * 2 ^ e * 255⌋.toNat 0 (by omega)
      (by rw [hcast, zpow_zero, mul_one]; exact Int.floor_le _)
    rw [hcast, zpow_zero, mul_one] at this
    exact this
  · obtain ⟨n, q, hmul, hq, hv, -, hhi⟩ := strength_times_255 m e h0 h1
    rw [hmul, toUint8_eq_floor n q hq hv]
    have hx : (0 : ℚ) ≤ (m : ℚ) * 2 ^ e * 255 := by positivity
    have hcl : 0 ≤ ⌈(m : ℚ) * 2 ^ e * 255⌉ := Int.ceil_nonneg hx
    have hcast : ((⌈(m : ℚ) * 2 ^ e * 255⌉.toNat : Nat) : ℚ) = (⌈(m : ℚ) * 2 ^ e * 255⌉ : ℚ) := by
      rw [← Int.cast_natCast, Int.toNat_of_nonneg hcl]
    have := hhi ⌈(m : ℚ) * 2 ^ e * 255⌉.toNat 0 (by omega)
      (by rw [hcast, zpow_zero, mul_one]; exact Int.le_ceil _)
    rw [hcast, zpow_zero, mul_one] at this
    have h2 : ((⌊(n : ℚ) * 2 ^ q⌋ : Int) : ℚ) ≤ (⌈(m : ℚ) * 2 ^ e * 255⌉ : ℚ) :=
      le_trans (Int.floor_le _) this
    exact_mod_cast h2

/-- C8, amended, at strength 0.25. -/
theorem RumbleWithStrength_large_force_truncated_witness :
    (0 : ℚ) ≤ ((1 : Int) : ℚ) * 2 ^ (-2 : Int) ∧ ((1 : Int) : ℚ) * 2 ^ (-2 : Int) ≤ 1
    ∧ ((RumbleWithStrength (DualShock3.new 3) 1 (.finite 1 (-2)) 0 (.accept 36)).byte 4
        = some 0x10
      ∧ ∃ b : uint8_t,
        (RumbleWithStrength (DualShock3.new 3) 1 (.finite 1 (-2)) 0 (.accept 36)).byte 5 = some b
        ∧ (b.val : Int) = ⌊float.toRat (float.mul (.finite 1 (-2)) (float.ofInt 255))⌋
        ∧ ⌊((1 : Int) : ℚ) * 2 ^ (-2 : Int) * 255⌋ ≤ (b.val : Int)
        ∧ (b.val : Int) ≤ ⌈((1 : Int) : ℚ) * 2 ^ (-2 : Int) * 255⌉) :=
  ⟨by norm_num [zpow_neg], by norm_num [zpow_neg],
    RumbleWithStrength_large_force_truncated (DualShock3.new 3) 1 (-2) 0 (.accept 36)
      (by norm_num [zpow_neg]) (by norm_num [zpow_neg])⟩

/-- C9: with motor selector 1 the force byte at offset 5 is 255 when the strength is 1.0
and 127 (one of the two values 127 and 128 the claim allows) when it is 0.5, however the
value is written as `m * 2 ^ e`; and `TestForce(strength)` does exactly what
`RumbleWithStrength(1, strength)` does, the report handed to `write` included, and
returns `true`. -/
theorem RumbleWithStrength_force_at_one_and_half (self : DualShock3) (errno : Nat)
    (out : WriteOutcome) (strength : float) (m1 e1 m2 e2 : Int)
    (h1 : (m1 : ℚ) * 2 ^ e1 = 1) (h2 : (m2 : ℚ) * 2 ^ e2 = 1 / 2) :
    (RumbleWithStrength self 1 (.finite m1 e1) errno out).byte 5 = some 255
    ∧ (RumbleWithStrength self 1 (.finite m2 e2) errno out).byte 5 = some 127
    ∧ (TestForce self strength errno out).1.written
        = (RumbleWithStrength self 1 strength errno out).written
    ∧ TestForce self strength errno out = (RumbleWithStrength self 1 strength errno out, true) := by
  refine ⟨?_, ?_, rfl, rfl⟩
  · rw [(RumbleWithStrength_large_bytes self (.finite m1 e1) errno out).2]
    have h := force_byte_of_exact m1 e1 255 0 (by omega) (by rw [h1]; norm_num)
      (by rw [h1]) (by rw [h1]; norm_num)
    have hf : ⌊((255 : Nat) : ℚ) * 2 ^ (0 : Int)⌋ = 255 := by
      rw [Int.floor_eq_iff]; norm_num
    rw [hf] at h
    congr 1
    apply Fin.ext
    have h3 : ((255 : uint8_t).val : Int) = 255 := rfl
    omega
  · rw [(RumbleWithStrength_large_bytes self (.finite m2 e2) errno out).2]
    have h := force_byte_of_exact m2 e2 255 (-1) (by omega) (by rw [h2]; norm_num)
      (by rw [h2]; norm_num) (by rw [h2]; norm_num [zpow_neg])
    have hf : ⌊((255 : Nat) : ℚ) * 2 ^ (-1 : Int)⌋ = 127 := by
      rw [Int.floor_eq_iff]; norm_num [zpow_neg]
    rw [hf] at h
    congr 1
    apply Fin.ext
    have h3 : ((127 : uint8_t).val : Int) = 127 := rfl
    omega

/-- C9 at the strengths `1 * 2 ^ 0` and `1 * 2 ^ (-1)`, with `TestForce` at its default
strength 0.60 (the float `10066330 * 2 ^ (-24)`). -/
theorem RumbleWithStrength_force_at_one_and_half_witness :
    ((1 : Int) : ℚ) * 2 ^ (0 : Int) = 1 ∧ ((1 : Int) : ℚ) * 2 ^ (-1 : Int) = 1 / 2
    ∧ ((RumbleWithStrength (DualShock3.new 3) 1 (.finite 1 0) 0 (.accept 36)).byte 5 = some 255
      ∧ (RumbleWithStrength (DualShock3.new 3) 1 (.finite 1 (-1)) 0 (.accept 36)).byte 5
          = some 127
      ∧ (TestForce (DualShock3.new 3) (.finite 10066330 (-24)) 0 (.accept 36)).1.written
          = (RumbleWithStrength (DualShock3.new 3) 1 (.finite 10066330 (-24)) 0
              (.accept 36)).written
      ∧ TestForce (DualShock3.new 3) (.finite 10066330 (-24)) 0 (.accept 36)
          = (RumbleWithStrength (DualShock3.new 3) 1 (.finite 10066330 (-24)) 0 (.accept 36),
              true)) :=
  ⟨by norm_num, by norm_num [zpow_neg],
    RumbleWithStrength_force_at_one_and_half (DualShock3.new 3) 0 (.accept 36)
      (.finite 10066330 (-24)) 1 0 1 (-1) (by norm_num) (by norm_num [zpow_neg])⟩

/-- The comparison `strength > 0` of line 275 on a finite strength: the sign of the value. -/
theorem gt_zero_finite (m e : Int) :
    float.gt (.finite m e) (float.ofInt 0) = decide (0 < (m : ℚ) * 2 ^ e) := by
  have hpow : (0 : Int) < 2 ^ (e - min e 0).toNat := by positivity
  have hiff : (0 < (m : ℚ) * 2 ^ e) ↔ 0 < m := by
    rw [mul_pos_iff_of_pos_right (two_zpow_pos e)]
    exact_mod_cast Iff.rfl
  rw [ofInt_0]
  simp only [float.gt, gt_iff_lt, zero_mul, decide_eq_decide, hiff]
  exact mul_pos_iff_of_pos_right hpow

/-- C10: for every strength the report `RumbleWithStrength(0, strength)` hands to `write`
has the non-zero constant 0x10 at offset 2, and at offset 3 the on-flag 1 if
`strength > 0` and 0 otherwise: 1 for a positive finite value and for +infinity, 0 for
zero, a negative value, -infinity and a NaN. In particular strength 0 gives 0x00 and
strength 0.4 (the float `13421773 * 2 ^ (-25)`) gives 0x01. -/
theorem RumbleWithStrength_small_motor (self : DualShock3) (errno : Nat) (out : WriteOutcome) :
    (∀ strength : float, (RumbleWithStrength self 0 strength errno out).byte 2 = some 0x10)
    ∧ (0x10 : uint8_t) ≠ 0
    ∧ (∀ m e : Int, (RumbleWithStrength self 0 (.finite m e) errno out).byte 3
        = some (if 0 < (m : ℚ) * 2 ^ e then 1 else 0))
    ∧ (RumbleWithStrength self 0 (.inf false) errno out).byte 3 = some 1
    ∧ (RumbleWithStrength self 0 (.inf true) errno out).byte 3 = some 0
    ∧ (RumbleWithStrength self 0 .nan errno out).byte 3 = some 0
    ∧ (RumbleWithStrength self 0 (.finite 0 0) errno out).byte 3 = some 0x00
    ∧ (RumbleWithStrength self 0 (.finite 13421773 (-25)) errno out).byte 3 = some 0x01 := by
  refine ⟨fun s => (RumbleWithStrength_small_bytes self s errno out).1, by decide, ?_, ?_, ?_,
    ?_, ?_, ?_⟩
  · intro m e
    rw [(RumbleWithStrength_small_bytes self _ errno out).2, gt_zero_finite]
    by_cases h : 0 < (m : ℚ) * 2 ^ e <;> simp [h]
  all_goals
    rw [(RumbleWithStrength_small_bytes self _ errno out).2]
    rfl

/-! ## Rumble: the report frame and the write result -/

/-- C11: for motor selector 0 and for motor selector 1, whatever the strength, the report
handed to `write` is 36 bytes long (and 36 is the count passed), its bytes 0 and 1 are
the report id 0x01, and it equals the fixed template outside the two bytes of the selected
motor (offsets 2-3 for selector 0, offsets 4-5 for selector 1): the other motor's two
bytes are 0x00 and the bytes at offsets 6..35 are those of the template. -/
theorem RumbleWithStrength_report_frame (self : DualShock3) (strength : float) (errno : Nat)
    (out : WriteOutcome) :
    (∃ data : List uint8_t,
      (RumbleWithStrength self 0 strength errno out).written = some (data, 36)
      ∧ data.length = 36
      ∧ data[0]? = some 0x01 ∧ data[1]? = some 0x01
      ∧ data.take 2 = RumbleWithStrength.data.take 2
      ∧ data.drop 4 = RumbleWithStrength.data.drop 4
      ∧ data[4]? = some 0x00 ∧ data[5]? = some 0x00
      ∧ (data.drop 6).take 30 = (RumbleWithStrength.data.drop 6).take 30)
    ∧ (∃ data : List uint8_t,
      (RumbleWithStrength self 1 strength errno out).written = some (data, 36)
      ∧ data.length = 36
      ∧ data[0]? = some 0x01 ∧ data[1]? = some 0x01
      ∧ data.take 4 = RumbleWithStrength.data.take 4
      ∧ data.drop 6 = RumbleWithStrength.data.drop 6
      ∧ data[2]? = some 0x00 ∧ data[3]? = some 0x00
      ∧ (data.drop 6).take 30 = (RumbleWithStrength.data.drop 6).take 30)
    ∧ RumbleWithStrength.data.length = 36 := by
  refine ⟨⟨_, RumbleWithStrength_small_written self strength errno out, ?_⟩,
    ⟨_, RumbleWithStrength_large_written self strength errno out, ?_⟩, rfl⟩
  · exact ⟨rfl, rfl, rfl, rfl, rfl, rfl, rfl, rfl⟩
  · exact ⟨rfl, rfl, rfl, rfl, rfl, rfl, rfl, rfl⟩

/-- The write takes the whole report. -/
theorem transmit_full (self : DualShock3) (data : List uint8_t) (errno room : Nat)
    (h : OUTPUT_REPORT_DATA_LENGTH ≤ room) :
    RumbleWithStrength.transmit self data errno (.accept room)
      = { self := self, written := some (data, OUTPUT_REPORT_DATA_LENGTH), diag := [] } := by
  have hmin : min OUTPUT_REPORT_DATA_LENGTH room = OUTPUT_REPORT_DATA_LENGTH :=
    Nat.min_eq_left h
  simp [RumbleWithStrength.transmit, write, hmin]

/-- The write takes fewer bytes than the report has. -/
theorem transmit_short (self : DualShock3) (data : List uint8_t) (errno room : Nat)
    (h : room < OUTPUT_REPORT_DATA_LENGTH) :
    RumbleWithStrength.transmit self data errno (.accept room)
      = { self := { self with m_no_error := false },
          written := some (data, OUTPUT_REPORT_DATA_LENGTH),
          diag := [.write_only_got room] } := by
  have hmin : min OUTPUT_REPORT_DATA_LENGTH room = room := Nat.min_eq_right (Nat.le_of_lt h)
  have h1 : ((room : Nat) : Int) < (OUTPUT_REPORT_DATA_LENGTH : Int) := by exact_mod_cast h
  have h2 : ¬ ((room : Nat) : Int) < 0 := by omega
  simp only [RumbleWithStrength.transmit, write, hmin]
  rw [if_pos h1, if_neg h2]

/-- The write fails. -/
theorem transmit_fail (self : DualShock3) (data : List uint8_t) (errno e : Nat) :
    RumbleWithStrength.transmit self data errno (.fail e)
      = { self := { self with m_no_error := false },
          written := some (data, OUTPUT_REPORT_DATA_LENGTH),
          diag := if e = EAGAIN then [] else [.write_failed e] } := by
  have h1 : (-1 : Int) < (OUTPUT_REPORT_DATA_LENGTH : Int) := by decide
  simp only [RumbleWithStrength.transmit, write]
  rw [if_pos h1, if_pos (by decide)]
  split <;> rfl

/-- The flag after the write: clear only if it was clear and the whole report was taken. -/
theorem transmit_flag (self : DualShock3) (data : List uint8_t) (errno : Nat)
    (out : WriteOutcome) :
    (RumbleWithStrength.transmit self data errno out).self.m_no_error
      = (self.m_no_error
          && decide ((write out OUTPUT_REPORT_DATA_LENGTH errno).ret = 36)) := by
  cases out with
  | accept room =>
    by_cases h : OUTPUT_REPORT_DATA_LENGTH ≤ room
    · have hmin : min OUTPUT_REPORT_DATA_LENGTH room = OUTPUT_REPORT_DATA_LENGTH :=
        Nat.min_eq_left h
      have hret : (write (.accept room) OUTPUT_REPORT_DATA_LENGTH errno).ret = 36 := by
        show ((min OUTPUT_REPORT_DATA_LENGTH room : Nat) : Int) = 36
        rw [hmin]
        rfl
      rw [transmit_full self data errno room h, hret]
      simp
    · have h2 : room < OUTPUT_REPORT_DATA_LENGTH := Nat.lt_of_not_le h
      have hmin : min OUTPUT_REPORT_DATA_LENGTH room = room :=
        Nat.min_eq_right (Nat.le_of_lt h2)
      have hret : ¬ (write (.accept room) OUTPUT_REPORT_DATA_LENGTH errno).ret = 36 := by
        show ¬ ((min OUTPUT_REPORT_DATA_LENGTH room : Nat) : Int) = 36
        rw [hmin]
        unfold OUTPUT_REPORT_DATA_LENGTH at h2
        omega
      rw [transmit_short self data errno room h2]
      simp [hret]
  | fail e =>
    rw [transmit_fail]
    simp [write]

/-- C15: for every motor selector other than 0 and 1, whatever the strength and whatever
a write would meet, `RumbleWithStrength` issues no write, prints nothing and leaves the
session (handle, report buffer, error flag) as it was. -/
theorem RumbleWithStrength_other_selector (self : DualShock3) (type : Nat) (strength : float)
    (errno : Nat) (out : WriteOutcome) (h0 : type ≠ 0) (h1 : type ≠ 1) :
    (RumbleWithStrength self type strength errno out).written = none
    ∧ (RumbleWithStrength self type strength errno out).self = self
    ∧ (RumbleWithStrength self type strength errno out).diag = [] := by
  match type, h0, h1 with
  | 0, h0, _ => exact absurd rfl h0
  | 1, _, h1 => exact absurd rfl h1
  | n + 2, _, _ => exact ⟨rfl, rfl, rfl⟩

/-- C15 at motor selector 2, with a write that would fail. -/
theorem RumbleWithStrength_other_selector_witness :
    (2 : Nat) ≠ 0 ∧ (2 : Nat) ≠ 1
    ∧ (RumbleWithStrength (DualShock3.new 3) 2 (.finite 1 0) 0 (.fail 5)).written = none
    ∧ (RumbleWithStrength (DualShock3.new 3) 2 (.finite 1 0) 0 (.fail 5)).self
        = DualShock3.new 3
    ∧ (RumbleWithStrength (DualShock3.new 3) 2 (.finite 1 0) 0 (.fail 5)).diag = [] :=
  ⟨by decide, by decide,
    RumbleWithStrength_other_selector (DualShock3.new 3) 2 (.finite 1 0) 0 (.fail 5)
      (by decide) (by decide)⟩

/-! ## The error flag is never cleared -/

/-- A clear flag after the write means it was clear before. -/
theorem RumbleWithStrength_flag (self : DualShock3) (type : Nat) (strength : float)
    (errno : Nat) (out : WriteOutcome) (h : self.m_no_error = false) :
    (RumbleWithStrength self type strength errno out).self.m_no_error = false := by
  match type with
  | 0 => simp [RumbleWithStrength, transmit_flag, h]
  | 1 => simp [RumbleWithStrength, transmit_flag, h]
  | n + 2 => exact h

/-- A pass through the drain loop never clears the flag. -/
theorem UpdateDeviceState_loop_flag (handle : List ReadOutcome) (self : DualShock3)
    (errno : Nat) (h : self.m_no_error = false) :
    (UpdateDeviceState.loop self errno handle).self.m_no_error = false := by
  have hbody : ∀ (s : DualShock3) (e : Nat) (next : Option ReadOutcome),
      s.m_no_error = false →
      (∀ s2 d, UpdateDeviceState.body s e next = .done s2 d → s2.m_no_error = false)
      ∧ (∀ s2 e2, UpdateDeviceState.body s e next = .again s2 e2 → s2.m_no_error = false) := by
    intro s e next hs
    simp only [UpdateDeviceState.body]
    constructor
    · intro s2 d hstep
      split_ifs at hstep <;> cases hstep <;> first | rfl | exact hs
    · intro s2 e2 hstep
      split_ifs at hstep
      cases hstep
      exact hs
  induction handle generalizing self errno with
  | nil =>
    simp only [UpdateDeviceState.loop]
    split
    · rename_i s d hstep
      exact (hbody self errno none h).1 s d hstep
    · rename_i s e hstep
      exact (hbody self errno none h).2 s e hstep
  | cons o rest ih =>
    simp only [UpdateDeviceState.loop]
    split
    · rename_i s d hstep
      exact (hbody self errno (some o) h).1 s d hstep
    · rename_i s e hstep
      exact ih s e ((hbody self errno (some o) h).2 s e hstep)

/-- C12: the error flag is sticky. For every session whose flag is set
(`m_no_error = false`) and every call on it after construction (`GetName`, `GetInput`,
`UpdateDeviceState`, `GetUniqueIdentifier`, `RumbleWithStrength`, `Rumble`, `TestForce`),
with any arguments, any configuration and any outcome of the reads and of the write, the
flag is still set after the call. -/
theorem error_flag_sticky (self : DualShock3) (call : Call) (h : self.m_no_error = false) :
    (self.after call).m_no_error = false := by
  cases call with
  | GetName => exact h
  | GetInput input => exact h
  | UpdateDeviceState handle => exact UpdateDeviceState_loop_flag handle self 0 h
  | GetUniqueIdentifier => exact h
  | RumbleWithStrength type strength errno out =>
    exact RumbleWithStrength_flag self type strength errno out h
  | Rumble g_conf type pad errno out =>
    simp only [DualShock3.after, Rumble]
    split
    · exact h
    · exact RumbleWithStrength_flag self type _ errno out h
  | TestForce strength errno out =>
    exact RumbleWithStrength_flag self 1 strength errno out h

/-- C12 on a session whose flag is set, refreshed from a handle with a full report queued
and then rumbled with a write that takes the whole report. -/
theorem error_flag_sticky_witness :
    ({ DualShock3.new 3 with m_no_error := false } : DualShock3).m_no_error = false
    ∧ (({ DualShock3.new 3 with m_no_error := false } : DualShock3).after
        (.UpdateDeviceState [.report (List.replicate 49 7)])).m_no_error = false
    ∧ (({ DualShock3.new 3 with m_no_error := false } : DualShock3).after
        (.RumbleWithStrength 1 (.finite 1 0) 0 (.accept 36))).m_no_error = false :=
  ⟨rfl,
    error_flag_sticky { DualShock3.new 3 with m_no_error := false }
      (.UpdateDeviceState [.report (List.replicate 49 7)]) rfl,
    error_flag_sticky { DualShock3.new 3 with m_no_error := false }
      (.RumbleWithStrength 1 (.finite 1 0) 0 (.accept 36)) rfl⟩

/-! ## State refresh: the read that ends the drain -/

/-- A failing read ends the drain; only an errno other than `EAGAIN` sets the flag. -/
theorem body_fail (self : DualShock3) (errno e : Nat) :
    UpdateDeviceState.body self errno (some (.fail e))
      = if e ≠ EAGAIN then .done { self with m_no_error := false } [.read_failed e]
        else .done self [] := by
  simp only [UpdateDeviceState.body, read]
  rw [if_neg (by decide), if_neg (by decide)]

/-- The drain over full reports followed by a failing read. -/
theorem UpdateDeviceState_loop_then_fail (rs : List (List uint8_t))
    (h : ∀ r ∈ rs, OUTPUT_REPORT_DATA_LENGTH ≤ r.length) (e : Nat) (rest : List ReadOutcome)
    (self : DualShock3) (errno : Nat) :
    (UpdateDeviceState.loop self errno (rs.map .report ++ .fail e :: rest)).self.m_no_error
        = (self.m_no_error && decide (e = EAGAIN))
    ∧ (UpdateDeviceState.loop self errno (rs.map .report ++ .fail e :: rest)).diag
        = (if e = EAGAIN then [] else [.read_failed e])
    ∧ (UpdateDeviceState.loop self errno (rs.map .report ++ .fail e :: rest)).reads.length
        = rs.length + 1
    ∧ (UpdateDeviceState.loop self errno (rs.map .report ++ .fail e :: rest)).pending
        = rest := by
  induction rs generalizing self errno with
  | nil =>
    simp only [List.map_nil, List.nil_append, UpdateDeviceState.loop, body_fail]
    by_cases he : e = EAGAIN
    · simp [he]
    · simp [he]
  | cons r rs ih =>
    have hr : OUTPUT_REPORT_DATA_LENGTH ≤ r.length := h r (List.mem_cons_self _ _)
    have hrest : ∀ x ∈ rs, OUTPUT_REPORT_DATA_LENGTH ≤ x.length :=
      fun x hx => h x (List.mem_cons_of_mem _ hx)
    obtain ⟨h1, h2, h3, h4⟩ := ih hrest
      { self with m_report_data :=
          (read (some (.report r)) self.m_report_data OUTPUT_REPORT_DATA_LENGTH errno).buf }
      errno
    simp only [List.map_cons, List.cons_append, UpdateDeviceState.loop,
      body_full_report self errno r hr, List.length_cons]
    exact ⟨h1, h2, congrArg (· + 1) h3, h4⟩

/-- C14: when every completed read is full (each queued report taken has at least the 36
bytes the code compares with), the read that ends the drain decides the flag. If it fails
with errno `e`, the flag afterwards is clear only if it was clear and `e` is `EAGAIN`: an
errno other than `EAGAIN` sets the flag and is reported, `EAGAIN` leaves the flag as it
was and nothing is reported; so a session whose flag was clear has it set afterwards if and
only if `e` is not `EAGAIN`. If it finds the queue empty (would block), the flag is as it
was. -/
theorem UpdateDeviceState_ending_read (rs : List (List uint8_t))
    (h : ∀ r ∈ rs, OUTPUT_REPORT_DATA_LENGTH ≤ r.length) (e : Nat) (rest : List ReadOutcome)
    (self : DualShock3) :
    (UpdateDeviceState self (rs.map .report ++ .fail e :: rest)).self.m_no_error
        = (self.m_no_error && decide (e = EAGAIN))
    ∧ (UpdateDeviceState self (rs.map .report ++ .fail e :: rest)).diag
        = (if e = EAGAIN then [] else [.read_failed e])
    ∧ (UpdateDeviceState self (rs.map .report ++ .fail e :: rest)).reads.length = rs.length + 1
    ∧ ((UpdateDeviceState { self with m_no_error := true }
          (rs.map .report ++ .fail e :: rest)).self.m_no_error = false ↔ e ≠ EAGAIN)
    ∧ (UpdateDeviceState self (rs.map .report)).self.m_no_error = self.m_no_error
    ∧ (UpdateDeviceState self (rs.map .report)).diag = [] := by
  obtain ⟨h1, h2, h3, -⟩ := UpdateDeviceState_loop_then_fail rs h e rest self 0
  obtain ⟨k1, -, -, -⟩ := UpdateDeviceState_loop_then_fail rs h e rest
    { self with m_no_error := true } 0
  obtain ⟨-, g2, -, g4, -, -⟩ := UpdateDeviceState_loop_full_reports rs h self 0
  refine ⟨h1, h2, h3, ?_, g4, g2⟩
  unfold UpdateDeviceState
  rw [k1]
  simp

/-- C14 with two full reports queued before the ending read. -/
theorem UpdateDeviceState_ending_read_witness :
    (∀ r ∈ [List.replicate 49 (1 : uint8_t), List.replicate 36 2],
        OUTPUT_REPORT_DATA_LENGTH ≤ r.length)
    ∧ (UpdateDeviceState (DualShock3.new 3)
        ([List.replicate 49 (1 : uint8_t), List.replicate 36 2].map .report
          ++ .fail 5 :: [])).self.m_no_error = false
    ∧ (UpdateDeviceState (DualShock3.new 3)
        ([List.replicate 49 (1 : uint8_t), List.replicate 36 2].map .report
          ++ .fail 5 :: [])).diag = [.read_failed 5]
    ∧ (UpdateDeviceState (DualShock3.new 3)
        ([List.replicate 49 (1 : uint8_t), List.replicate 36 2].map .report
          ++ .fail EAGAIN :: [])).self.m_no_error = true
    ∧ (UpdateDeviceState (DualShock3.new 3)
        ([List.replicate 49 (1 : uint8_t), List.replicate 36 2].map .report
          ++ .fail EAGAIN :: [])).diag = [] :=
  have hfull : ∀ r ∈ [List.replicate 49 (1 : uint8_t), List.replicate 36 2],
      OUTPUT_REPORT_DATA_LENGTH ≤ r.length := by decide
  ⟨hfull,
    (UpdateDeviceState_ending_read _ hfull 5 [] (DualShock3.new 3)).1,
    (UpdateDeviceState_ending_read _ hfull 5 [] (DualShock3.new 3)).2.1,
    (UpdateDeviceState_ending_read _ hfull EAGAIN [] (DualShock3.new 3)).1,
    (UpdateDeviceState_ending_read _ hfull EAGAIN [] (DualShock3.new 3)).2.1⟩

/-! ## Control value extraction: what is read -/

/-- C20: every offset `GetInput` reads is at most 25, below the 36 bytes a read of
`UpdateDeviceState` overwrites and the 49 the buffer has: on two sessions whose buffers
agree on their first `k` bytes, for any `k` above 25 (36 in particular), `GetInput`
returns the same value for every control; and `GetInput` leaves the session, buffer and
error flag included, as it was. -/
theorem GetInput_reads_first_bytes (s1 s2 : DualShock3) (k : Nat) (input : gamePadValues)
    (hk : 25 < k)
    (h : ∀ i : Fin INPUT_REPORT_DATA_LENGTH, i.val < k →
      s1.m_report_data i = s2.m_report_data i) :
    GetInput s1 input = GetInput s2 input
    ∧ s1.after (.GetInput input) = s1
    ∧ (DIGITALS ≤ 25 ∧ ANALOG_STICK_LEFT_X ≤ 25 ∧ ANALOG_STICK_LEFT_Y ≤ 25
      ∧ ANALOG_STICK_RIGHT_X ≤ 25 ∧ ANALOG_STICK_RIGHT_Y ≤ 25
      ∧ ANALOG_DPAD_UP ≤ 25 ∧ ANALOG_DPAD_RIGHT ≤ 25 ∧ ANALOG_DPAD_DOWN ≤ 25
      ∧ ANALOG_DPAD_LEFT ≤ 25 ∧ ANALOG_L2 ≤ 25 ∧ ANALOG_R2 ≤ 25 ∧ ANALOG_L1 ≤ 25
      ∧ ANALOG_R1 ≤ 25 ∧ ANALOG_TRIANGLE ≤ 25 ∧ ANALOG_CIRCLE ≤ 25 ∧ ANALOG_CROSS ≤ 25
      ∧ ANALOG_SQUARE ≤ 25)
    ∧ 25 < OUTPUT_REPORT_DATA_LENGTH
    ∧ OUTPUT_REPORT_DATA_LENGTH ≤ INPUT_REPORT_DATA_LENGTH := by
  refine ⟨?_, rfl, by decide, by decide, by decide⟩
  cases input <;> simp only [GetInput] <;> first
    | rfl
    | (rw [h]
       simp only [DIGITALS, ANALOG_STICK_LEFT_X, ANALOG_STICK_LEFT_Y, ANALOG_STICK_RIGHT_X,
         ANALOG_STICK_RIGHT_Y, ANALOG_DPAD_UP, ANALOG_DPAD_RIGHT, ANALOG_DPAD_DOWN,
         ANALOG_DPAD_LEFT, ANALOG_L2, ANALOG_R2, ANALOG_L1, ANALOG_R1, ANALOG_TRIANGLE,
         ANALOG_CIRCLE, ANALOG_CROSS, ANALOG_SQUARE]
       omega)

/-- C20 at `k = 36`: a zeroed buffer and one that differs from it from offset 36 on. -/
theorem GetInput_reads_first_bytes_witness :
    25 < 36
    ∧ (∀ i : Fin INPUT_REPORT_DATA_LENGTH, i.val < 36 →
        (DualShock3.new 3).m_report_data i
          = ({ DualShock3.new 3 with
                m_report_data := fun j => if j.val < 36 then 0 else 9 } : DualShock3).m_report_data
              i)
    ∧ GetInput (DualShock3.new 3) .PAD_SQUARE
        = GetInput ({ DualShock3.new 3 with
            m_report_data := fun j => if j.val < 36 then 0 else 9 } : DualShock3) .PAD_SQUARE :=
  have hagree : ∀ i : Fin INPUT_REPORT_DATA_LENGTH, i.val < 36 →
      (DualShock3.new 3).m_report_data i
        = ({ DualShock3.new 3 with
              m_report_data := fun j => if j.val < 36 then 0 else 9 } : DualShock3).m_report_data
            i := by
    intro i hi
    simp [DualShock3.new, hi]
  ⟨by decide, hagree,
    (GetInput_reads_first_bytes (DualShock3.new 3) _ 36 .PAD_SQUARE (by decide) hagree).1⟩

/-! ## Enumeration: properties -/

/-- What `dirent.target` stands for. -/
theorem target_eq_some_iff (entry : dirent) (fd : Nat) :
    entry.target = some fd ↔
      entry.d_name.take 6 = ['h', 'i', 'd', 'r', 'a', 'w'] ∧ entry.opens = .ok fd
      ∧ ∃ info, entry.rawinfo = .ok info ∧ info.vendor = 0x054c ∧ info.product = 0x0268 := by
  unfold dirent.target
  cases hopen : entry.opens with
  | fail e => simp
  | ok fd2 =>
    cases hinfo : entry.rawinfo with
    | fail e => simp
    | ok info =>
      simp only []
      constructor
      · intro h
        split_ifs at h with hc
        cases h
        exact ⟨hc.1, rfl, info, rfl, hc.2.1, hc.2.2⟩
      · rintro ⟨h1, h2, info2, h3, h4, h5⟩
        cases h2
        cases h3
        rw [if_pos ⟨h1, h4, h5⟩]

/-- The body on an entry without the raw-HID name prefix. -/
theorem body_other_name (st : Scan) (entry : dirent)
    (hname : ¬ entry.d_name.take 6 = ['h', 'i', 'd', 'r', 'a', 'w']) :
    EnumerateDualShock3s.body st entry = .next st := by
  unfold EnumerateDualShock3s.body
  rw [if_neg hname]

/-- The body when `snprintf` fails. -/
theorem body_snprintf_fail (st : Scan) (entry : dirent)
    (hname : entry.d_name.take 6 = ['h', 'i', 'd', 'r', 'a', 'w'])
    (hpath : entry.snprintf < 0) :
    EnumerateDualShock3s.body st entry
      = .stop { st with diag := st.diag ++ [ScanDiagnostic.snprintf_failed entry.snprintf] } := by
  unfold EnumerateDualShock3s.body
  rw [if_pos hname]
  simp only [hpath, if_true]

/-- The body when `open` fails: `continue` for `EPERM`, `break` otherwise. -/
theorem body_open_fail (st : Scan) (entry : dirent) (e : Nat)
    (hname : entry.d_name.take 6 = ['h', 'i', 'd', 'r', 'a', 'w'])
    (hpath : 0 ≤ entry.snprintf) (hopen : entry.opens = .fail e) :
    EnumerateDualShock3s.body st entry
      = if e = EPERM then
          .next { st with opens := st.opens ++ [entry.d_name], errno := 0 }
        else
          .stop { st with opens := st.opens ++ [entry.d_name], errno := 0,
                          diag := st.diag ++ [ScanDiagnostic.open_failed e] } := by
  unfold EnumerateDualShock3s.body
  rw [if_pos hname]
  simp only [not_lt.2 hpath, if_false, hopen]

/-- The body when the identity query fails: the handle is closed, then `break`. -/
theorem body_ioctl_fail (st : Scan) (entry : dirent) (fd e : Nat)
    (hname : entry.d_name.take 6 = ['h', 'i', 'd', 'r', 'a', 'w'])
    (hpath : 0 ≤ entry.snprintf) (hopen : entry.opens = .ok fd)
    (hinfo : entry.rawinfo = .fail e) :
    EnumerateDualShock3s.body st entry
      = .stop { st with
          opens := st.opens ++ [entry.d_name], fds := st.fds ++ [fd], errno := 0,
          closed := st.closed ++ [fd],
          diag := if entry.closes < 0 then
              st.diag ++ [ScanDiagnostic.ioctl_failed e] ++ [ScanDiagnostic.close_failed]
            else st.diag ++ [ScanDiagnostic.ioctl_failed e] } := by
  unfold EnumerateDualShock3s.body
  rw [if_pos hname]
  simp only [not_lt.2 hpath, if_false, hopen, hinfo]
  split_ifs <;> rfl

/-- The body when the identity query answers: the handle is bound if the identity is the
controller's and the list is empty; otherwise nothing more is done with it. -/
theorem body_info (st : Scan) (entry : dirent) (fd : Nat) (info : hidraw_devinfo)
    (hname : entry.d_name.take 6 = ['h', 'i', 'd', 'r', 'a', 'w'])
    (hpath : 0 ≤ entry.snprintf) (hopen : entry.opens = .ok fd)
    (hinfo : entry.rawinfo = .ok info) :
    EnumerateDualShock3s.body st entry
      = if info.vendor = 0x054c ∧ info.product = 0x0268 ∧ st.vjoysticks.length < 1 then
          .next { st with
            opens := st.opens ++ [entry.d_name], fds := st.fds ++ [fd],
            vjoysticks := st.vjoysticks ++ [Device.dualshock3 (DualShock3.new fd)] }
        else
          .next { st with opens := st.opens ++ [entry.d_name], fds := st.fds ++ [fd] } := by
  unfold EnumerateDualShock3s.body
  rw [if_pos hname]
  simp only [not_lt.2 hpath, if_false, hopen, hinfo]

/-- The five ways through the body. -/
theorem body_cases (st : Scan) (entry : dirent) :
    EnumerateDualShock3s.body st entry = .next st
    ∨ EnumerateDualShock3s.body st entry
        = .stop { st with diag := st.diag ++ [ScanDiagnostic.snprintf_failed entry.snprintf] }
    ∨ (∃ e, EnumerateDualShock3s.body st entry
        = if e = EPERM then
            .next { st with opens := st.opens ++ [entry.d_name], errno := 0 }
          else
            .stop { st with opens := st.opens ++ [entry.d_name], errno := 0,
                            diag := st.diag ++ [ScanDiagnostic.open_failed e] })
    ∨ (∃ (fd e : Nat), EnumerateDualShock3s.body st entry
        = .stop { st with
            opens := st.opens ++ [entry.d_name], fds := st.fds ++ [fd], errno := 0,
            closed := st.closed ++ [fd],
            diag := if entry.closes < 0 then
                st.diag ++ [ScanDiagnostic.ioctl_failed e] ++ [ScanDiagnostic.close_failed]
              else st.diag ++ [ScanDiagnostic.ioctl_failed e] })
    ∨ (∃ (fd : Nat) (info : hidraw_devinfo), EnumerateDualShock3s.body st entry
        = if info.vendor = 0x054c ∧ info.product = 0x0268 ∧ st.vjoysticks.length < 1 then
            .next { st with
              opens := st.opens ++ [entry.d_name], fds := st.fds ++ [fd],
              vjoysticks := st.vjoysticks ++ [Device.dualshock3 (DualShock3.new fd)] }
          else
            .next { st with opens := st.opens ++ [entry.d_name], fds := st.fds ++ [fd] }) := by
  by_cases hname : entry.d_name.take 6 = ['h', 'i', 'd', 'r', 'a', 'w']
  · by_cases hpath : entry.snprintf < 0
    · exact Or.inr (Or.inl (body_snprintf_fail st entry hname hpath))
    · have hpath2 : 0 ≤ entry.snprintf := not_lt.1 hpath
      cases hopen : entry.opens with
      | fail e => exact Or.inr (Or.inr (Or.inl ⟨e, body_open_fail st entry e hname hpath2 hopen⟩))
      | ok fd =>
        cases hinfo : entry.rawinfo with
        | fail e =>
          exact Or.inr (Or.inr (Or.inr (Or.inl
            ⟨fd, e, body_ioctl_fail st entry fd e hname hpath2 hopen hinfo⟩)))
        | ok info =>
          exact Or.inr (Or.inr (Or.inr (Or.inr
            ⟨fd, info, body_info st entry fd info hname hpath2 hopen hinfo⟩)))
  · exact Or.inl (body_other_name st entry hname)

/-- A pass through the body does not touch the `break` mark. -/
theorem body_aborted (st : Scan) (entry : dirent) :
    (EnumerateDualShock3s.body st entry).state.aborted = st.aborted := by
  rcases body_cases st entry with h | h | ⟨e, h⟩ | ⟨fd, e, h⟩ | ⟨fd, info, h⟩ <;> rw [h]
  · rfl
  · rfl
  · split_ifs <;> rfl
  · rfl
  · split_ifs <;> rfl

/-- With a device already in the list a pass through the body adds none. -/
theorem body_keep (st : Scan) (entry : dirent) (h : st.vjoysticks ≠ []) :
    (EnumerateDualShock3s.body st entry).state.vjoysticks = st.vjoysticks := by
  have hlen : ¬ st.vjoysticks.length < 1 := by
    cases hv : st.vjoysticks with
    | nil => exact absurd hv h
    | cons d ds => simp
  rcases body_cases st entry with h | h | ⟨e, h⟩ | ⟨fd, e, h⟩ | ⟨fd, info, h⟩ <;> rw [h]
  · rfl
  · rfl
  · split_ifs <;> rfl
  · rfl
  · rw [if_neg (fun hc => hlen hc.2.2)]
    rfl

/-- A pass through the body with an empty list: it breaks with the list still empty, or
goes on with the list still empty past an entry that is no target, or goes on having
bound the handle of a target. -/
theorem body_empty (st : Scan) (entry : dirent) (h : st.vjoysticks = []) :
    (∃ st2, EnumerateDualShock3s.body st entry = .stop st2 ∧ st2.vjoysticks = [])
    ∨ (∃ st2, EnumerateDualShock3s.body st entry = .next st2 ∧ st2.vjoysticks = []
        ∧ entry.target = none)
    ∨ (∃ (st2 : Scan) (fd : Nat), EnumerateDualShock3s.body st entry = .next st2
        ∧ st2.vjoysticks = [.dualshock3 (DualShock3.new fd)] ∧ entry.target = some fd) := by
  by_cases hname : entry.d_name.take 6 = ['h', 'i', 'd', 'r', 'a', 'w']
  · by_cases hpath : entry.snprintf < 0
    · rw [body_snprintf_fail st entry hname hpath]
      exact Or.inl ⟨_, rfl, h⟩
    · have hpath2 : 0 ≤ entry.snprintf := not_lt.1 hpath
      cases hopen : entry.opens with
      | fail e =>
        rw [body_open_fail st entry e hname hpath2 hopen]
        have htarget : entry.target = none := by
          unfold dirent.target
          rw [hopen]
        by_cases he : e = EPERM
        · rw [if_pos he]
          exact Or.inr (Or.inl ⟨_, rfl, h, htarget⟩)
        · rw [if_neg he]
          exact Or.inl ⟨_, rfl, h⟩
      | ok fd =>
        cases hinfo : entry.rawinfo with
        | fail e =>
          rw [body_ioctl_fail st entry fd e hname hpath2 hopen hinfo]
          exact Or.inl ⟨_, rfl, h⟩
        | ok info =>
          rw [body_info st entry fd info hname hpath2 hopen hinfo]
          have hlen : st.vjoysticks.length < 1 := by rw [h]; decide
          by_cases hid : info.vendor = 0x054c ∧ info.product = 0x0268
          · rw [if_pos ⟨hid.1, hid.2, hlen⟩]
            refine Or.inr (Or.inr ⟨_, fd, rfl, ?_, ?_⟩)
            · simp [h]
            · rw [target_eq_some_iff]
              exact ⟨hname, hopen, info, hinfo, hid.1, hid.2⟩
          · rw [if_neg (fun hc => hid ⟨hc.1, hc.2.1⟩)]
            refine Or.inr (Or.inl ⟨_, rfl, h, ?_⟩)
            cases ht : entry.target with
            | none => rfl
            | some fd2 =>
              obtain ⟨-, -, info2, hi2, hv, hp⟩ := (target_eq_some_iff entry fd2).1 ht
              rw [hinfo] at hi2
              cases hi2
              exact absurd ⟨hv, hp⟩ hid
  · rw [body_other_name st entry hname]
    refine Or.inr (Or.inl ⟨_, rfl, h, ?_⟩)
    cases ht : entry.target with
    | none => rfl
    | some fd2 => exact absurd ((target_eq_some_iff entry fd2).1 ht).1 hname

/-- With a device already in the list the scan adds none. -/
theorem loop_keep (entries : List dirent) (st : Scan) (h : st.vjoysticks ≠ []) :
    (EnumerateDualShock3s.loop st entries).vjoysticks = st.vjoysticks := by
  induction entries generalizing st with
  | nil => rfl
  | cons entry rest ih =>
    have hk := body_keep st entry h
    simp only [EnumerateDualShock3s.loop]
    cases hb : EnumerateDualShock3s.body st entry with
    | next st2 =>
      rw [hb] at hk
      have hk2 : st2.vjoysticks = st.vjoysticks := hk
      simp only
      rw [ih st2 (by rw [hk2]; exact h), hk2]
    | stop st2 =>
      rw [hb] at hk
      exact hk

/-- Started with an empty list the scan ends with an empty list, or with exactly one
session, bound to the handle of the first target among the entries. -/
theorem loop_first (entries : List dirent) (st : Scan) (h : st.vjoysticks = []) :
    (EnumerateDualShock3s.loop st entries).vjoysticks = []
    ∨ ∃ (pre : List dirent) (entry : dirent) (post : List dirent) (fd : Nat),
        entries = pre ++ entry :: post
        ∧ (∀ x ∈ pre, x.target = none)
        ∧ entry.target = some fd
        ∧ (EnumerateDualShock3s.loop st entries).vjoysticks
            = [.dualshock3 (DualShock3.new fd)] := by
  induction entries generalizing st with
  | nil => exact Or.inl h
  | cons entry rest ih =>
    simp only [EnumerateDualShock3s.loop]
    rcases body_empty st entry h with ⟨st2, hb, hv⟩ | ⟨st2, hb, hv, ht⟩ | ⟨st2, fd, hb, hv, ht⟩
    · rw [hb]
      exact Or.inl hv
    · rw [hb]
      simp only
      rcases ih st2 hv with hnil | ⟨pre, e, post, fd, hsplit, hpre, he, hres⟩
      · exact Or.inl hnil
      · refine Or.inr ⟨entry :: pre, e, post, fd, by rw [hsplit]; rfl, ?_, he, hres⟩
        intro x hx
        rcases List.mem_cons.1 hx with hx | hx
        · rw [hx]; exact ht
        · exact hpre x hx
    · rw [hb]
      simp only
      refine Or.inr ⟨[], entry, rest, fd, rfl, ?_, ht, ?_⟩
      · intro x hx
        exact absurd hx (List.not_mem_nil x)
      · rw [loop_keep rest st2 (by rw [hv]; simp), hv]

/-- A scan that is not left by `break`, started with an empty list, binds exactly the
first target among the entries, if there is one. -/
theorem loop_complete (entries : List dirent) (st : Scan) (h : st.vjoysticks = [])
    (ha : st.aborted = false)
    (hdone : (EnumerateDualShock3s.loop st entries).aborted = false) :
    (EnumerateDualShock3s.loop st entries).vjoysticks
      = match entries.findSome? dirent.target with
        | some fd => [.dualshock3 (DualShock3.new fd)]
        | none => [] := by
  induction entries generalizing st with
  | nil => exact h
  | cons entry rest ih =>
    have hab := body_aborted st entry
    simp only [EnumerateDualShock3s.loop] at hdone ⊢
    rcases body_empty st entry h with ⟨st2, hb, hv⟩ | ⟨st2, hb, hv, ht⟩ | ⟨st2, fd, hb, hv, ht⟩
    · rw [hb] at hdone
      exact absurd hdone (by simp)
    · rw [hb] at hdone hab ⊢
      simp only at hdone ⊢
      rw [List.findSome?_cons, ht]
      exact ih st2 hv (hab.trans ha) hdone
    · rw [hb]
      simp only
      rw [List.findSome?_cons, ht, loop_keep rest st2 (by rw [hv]; simp), hv]

/-- What `EnumerateDualShock3s` adds to the loop leaves the list, the record of opened and
closed handles and the `break` mark alone. -/
theorem EnumerateDualShock3s_some (vjoysticks : List Device) (dir : DIR) :
    (EnumerateDualShock3s vjoysticks (some dir)).vjoysticks
        = (EnumerateDualShock3s.loop
            { vjoysticks := vjoysticks, errno := 0, opens := [], fds := [], closed := [],
              diag := [], aborted := false } dir.entries).vjoysticks
    ∧ (EnumerateDualShock3s vjoysticks (some dir)).aborted
        = (EnumerateDualShock3s.loop
            { vjoysticks := vjoysticks, errno := 0, opens := [], fds := [], closed := [],
              diag := [], aborted := false } dir.entries).aborted
    ∧ (EnumerateDualShock3s vjoysticks (some dir)).opens
        = (EnumerateDualShock3s.loop
            { vjoysticks := vjoysticks, errno := 0, opens := [], fds := [], closed := [],
              diag := [], aborted := false } dir.entries).opens
    ∧ (EnumerateDualShock3s vjoysticks (some dir)).fds
        = (EnumerateDualShock3s.loop
            { vjoysticks := vjoysticks, errno := 0, opens := [], fds := [], closed := [],
              diag := [], aborted := false } dir.entries).fds := by
  simp only [EnumerateDualShock3s]
  refine ⟨?_, ?_, ?_, ?_⟩ <;>
    (split_ifs <;> first | rfl | (split <;> rfl))

/-- C16: for every outcome of `opendir`, every directory listing and every outcome of the
`snprintf`, `open`, identity-query and `close` calls, `EnumerateDualShock3s` called with
an empty list leaves a list of size 0 or 1, and called with a non-empty list leaves that
list as it is. -/
theorem EnumerateDualShock3s_at_most_one (dev_dir : Option DIR) :
    (EnumerateDualShock3s [] dev_dir).vjoysticks.length ≤ 1
    ∧ ∀ (d : Device) (ds : List Device),
        (EnumerateDualShock3s (d :: ds) dev_dir).vjoysticks = d :: ds := by
  cases dev_dir with
  | none => exact ⟨by simp [EnumerateDualShock3s], fun d ds => rfl⟩
  | some dir =>
    constructor
    · rw [(EnumerateDualShock3s_some [] dir).1]
      rcases loop_first dir.entries
        { vjoysticks := [], errno := 0, opens := [], fds := [], closed := [], diag := [],
          aborted := false } rfl with h | ⟨_, _, _, _, _, _, _, h⟩
      · rw [h]; simp
      · rw [h]; simp
    · intro d ds
      rw [(EnumerateDualShock3s_some (d :: ds) dir).1]
      exact loop_keep dir.entries _ (by simp)

/-- C17, the code on candidates that are not bound. (1) Three raw-HID nodes that open
(handles 3, 4, 5) and report another identity (046d:c52b), empty list: the scan completes,
binds nothing and hands none of the three handles to `close`; all three stay open.
(2) Two nodes that both report the controller's identity (handles 3 and 4): the first is
bound, the second is neither bound nor closed. Only the path of a failed identity query
closes the handle it opened. -/
theorem EnumerateDualShock3s_leaks_unbound_handles :
    ((EnumerateDualShock3s [] (some
        { entries :=
            [ { d_name := ['h', 'i', 'd', 'r', 'a', 'w', '0'], snprintf := 12, opens := .ok 3,
                rawinfo := .ok { vendor := 0x046d, product := 0xc52b }, closes := 0 },
              { d_name := ['h', 'i', 'd', 'r', 'a', 'w', '1'], snprintf := 12, opens := .ok 4,
                rawinfo := .ok { vendor := 0x046d, product := 0xc52b }, closes := 0 },
              { d_name := ['h', 'i', 'd', 'r', 'a', 'w', '2'], snprintf := 12, opens := .ok 5,
                rawinfo := .ok { vendor := 0x046d, product := 0xc52b }, closes := 0 } ]
          readdir_fail := none
          closedir := 0 })).fds = [3, 4, 5]
      ∧ (EnumerateDualShock3s [] (some
        { entries :=
            [ { d_name := ['h', 'i', 'd', 'r', 'a', 'w', '0'], snprintf := 12, opens := .ok 3,
                rawinfo := .ok { vendor := 0x046d, product := 0xc52b }, closes := 0 },
              { d_name := ['h', 'i', 'd', 'r', 'a', 'w', '1'], snprintf := 12, opens := .ok 4,
                rawinfo := .ok { vendor := 0x046d, product := 0xc52b }, closes := 0 },
              { d_name := ['h', 'i', 'd', 'r', 'a', 'w', '2'], snprintf := 12, opens := .ok 5,
                rawinfo := .ok { vendor := 0x046d, product := 0xc52b }, closes := 0 } ]
          readdir_fail := none
          closedir := 0 })).closed = []
      ∧ (EnumerateDualShock3s [] (some
        { entries :=
            [ { d_name := ['h', 'i', 'd', 'r', 'a', 'w', '0'], snprintf := 12, opens := .ok 3,
                rawinfo := .ok { vendor := 0x046d, product := 0xc52b }, closes := 0 },
              { d_name := ['h', 'i', 'd', 'r', 'a', 'w', '1'], snprintf := 12, opens := .ok 4,
                rawinfo := .ok { vendor := 0x046d, product := 0xc52b }, closes := 0 },
              { d_name := ['h', 'i', 'd', 'r', 'a', 'w', '2'], snprintf := 12, opens := .ok 5,
                rawinfo := .ok { vendor := 0x046d, product := 0xc52b }, closes := 0 } ]
          readdir_fail := none
          closedir := 0 })).vjoysticks.map Device.fd = []
      ∧ (EnumerateDualShock3s [] (some
        { entries :=
            [ { d_name := ['h', 'i', 'd', 'r', 'a', 'w', '0'], snprintf := 12, opens := .ok 3,
                rawinfo := .ok { vendor := 0x046d, product := 0xc52b }, closes := 0 },
              { d_name := ['h', 'i', 'd', 'r', 'a', 'w', '1'], snprintf := 12, opens := .ok 4,
                rawinfo := .ok { vendor := 0x046d, product := 0xc52b }, closes := 0 },
              { d_name := ['h', 'i', 'd', 'r', 'a', 'w', '2'], snprintf := 12, opens := .ok 5,
                rawinfo := .ok { vendor := 0x046d, product := 0xc52b }, closes := 0 } ]
          readdir_fail := none
          closedir := 0 })).aborted = false)
    ∧ ((EnumerateDualShock3s [] (some
        { entries :=
            [ { d_name := ['h', 'i', 'd', 'r', 'a', 'w', '0'], snprintf := 12, opens := .ok 3,
                rawinfo := .ok { vendor := 0x054c, product := 0x0268 }, closes := 0 },
              { d_name := ['h', 'i', 'd', 'r', 'a', 'w', '1'], snprintf := 12, opens := .ok 4,
                rawinfo := .ok { vendor := 0x054c, product := 0x0268 }, closes := 0 } ]
          readdir_fail := none
          closedir := 0 })).fds = [3, 4]
      ∧ (EnumerateDualShock3s [] (some
        { entries :=
            [ { d_name := ['h', 'i', 'd', 'r', 'a', 'w', '0'], snprintf := 12, opens := .ok 3,
                rawinfo := .ok { vendor := 0x054c, product := 0x0268 }, closes := 0 },
              { d_name := ['h', 'i', 'd', 'r', 'a', 'w', '1'], snprintf := 12, opens := .ok 4,
                rawinfo := .ok { vendor := 0x054c, product := 0x0268 }, closes := 0 } ]
          readdir_fail := none
          closedir := 0 })).closed = []
      ∧ (EnumerateDualShock3s [] (some
        { entries :=
            [ { d_name := ['h', 'i', 'd', 'r', 'a', 'w', '0'], snprintf := 12, opens := .ok 3,
                rawinfo := .ok { vendor := 0x054c, product := 0x0268 }, closes := 0 },
              { d_name := ['h', 'i', 'd', 'r', 'a', 'w', '1'], snprintf := 12, opens := .ok 4,
                rawinfo := .ok { vendor := 0x054c, product := 0x0268 }, closes := 0 } ]
          readdir_fail := none
          closedir := 0 })).vjoysticks.map Device.fd = [some 3])
    ∧ (EnumerateDualShock3s [] (some
        { entries :=
            [ { d_name := ['h', 'i', 'd', 'r', 'a', 'w', '0'], snprintf := 12, opens := .ok 3,
                rawinfo := .fail 25, closes := 0 } ]
          readdir_fail := none
          closedir := 0 })).closed = [3] := by
  decide

/-- A target met with an empty list is bound, and stays the only session. -/
theorem loop_target_head (st : Scan) (next : dirent) (rest : List dirent) (fd : Nat)
    (h : st.vjoysticks = []) (ht : next.target = some fd) (hp : 0 ≤ next.snprintf) :
    (EnumerateDualShock3s.loop st (next :: rest)).vjoysticks
      = [.dualshock3 (DualShock3.new fd)] := by
  obtain ⟨hn1, hn2, info, hn3, hn4, hn5⟩ := (target_eq_some_iff next fd).1 ht
  have hlen : st.vjoysticks.length < 1 := by rw [h]; decide
  have hb := body_info st next fd info hn1 hp hn2 hn3
  rw [if_pos ⟨hn4, hn5, hlen⟩] at hb
  simp only [EnumerateDualShock3s.loop, hb]
  rw [loop_keep rest _ (by simp)]
  simp [h]

/-- At an entry that breaks the scan the body executes `break`, the list untouched. -/
theorem body_of_breaks (st : Scan) (entry : dirent) (h : entry.breaks = true) :
    ∃ st2, EnumerateDualShock3s.body st entry = .stop st2
      ∧ st2.vjoysticks = st.vjoysticks := by
  by_cases hname : entry.d_name.take 6 = ['h', 'i', 'd', 'r', 'a', 'w']
  · by_cases hpath : entry.snprintf < 0
    · exact ⟨_, body_snprintf_fail st entry hname hpath, rfl⟩
    · have hpath2 : 0 ≤ entry.snprintf := not_lt.1 hpath
      cases hopen : entry.opens with
      | fail e =>
        have he : e ≠ EPERM := by
          simpa [dirent.breaks, hname, hpath, hopen] using h
        rw [body_open_fail st entry e hname hpath2 hopen, if_neg he]
        exact ⟨_, rfl, rfl⟩
      | ok fd =>
        cases hinfo : entry.rawinfo with
        | fail e => exact ⟨_, body_ioctl_fail st entry fd e hname hpath2 hopen hinfo, rfl⟩
        | ok info => simp [dirent.breaks, hname, hpath, hopen, hinfo] at h
  · simp [dirent.breaks, hname] at h

/-- At an entry that does not break the scan the body reaches the next `readdir`. -/
theorem body_of_not_breaks (st : Scan) (entry : dirent) (h : entry.breaks = false) :
    ∃ st2, EnumerateDualShock3s.body st entry = .next st2 := by
  by_cases hname : entry.d_name.take 6 = ['h', 'i', 'd', 'r', 'a', 'w']
  · by_cases hpath : entry.snprintf < 0
    · simp [dirent.breaks, hname, hpath] at h
    · have hpath2 : 0 ≤ entry.snprintf := not_lt.1 hpath
      cases hopen : entry.opens with
      | fail e =>
        have he : e = EPERM := by
          simpa [dirent.breaks, hname, hpath, hopen] using h
        rw [body_open_fail st entry e hname hpath2 hopen, if_pos he]
        exact ⟨_, rfl⟩
      | ok fd =>
        cases hinfo : entry.rawinfo with
        | fail e => simp [dirent.breaks, hname, hpath, hopen, hinfo] at h
        | ok info =>
          rw [body_info st entry fd info hname hpath2 hopen hinfo]
          split_ifs <;> exact ⟨_, rfl⟩
  · exact ⟨_, body_other_name st entry hname⟩

/-- A target whose path is built does not break the scan. -/
theorem not_breaks_of_target (entry : dirent) (fd : Nat) (ht : entry.target = some fd)
    (hp : 0 ≤ entry.snprintf) : entry.breaks = false := by
  obtain ⟨hn1, hn2, info, hn3, -, -⟩ := (target_eq_some_iff entry fd).1 ht
  simp [dirent.breaks, hn2, hn3, not_lt.2 hp]

/-- The loop is left by `break` exactly when some entry breaks the scan. -/
theorem loop_aborted (entries : List dirent) (st : Scan) (ha : st.aborted = false) :
    (EnumerateDualShock3s.loop st entries).aborted = entries.any dirent.breaks := by
  induction entries generalizing st with
  | nil => simpa [EnumerateDualShock3s.loop] using ha
  | cons entry rest ih =>
    cases hb : entry.breaks with
    | true =>
      obtain ⟨st2, hstep, -⟩ := body_of_breaks st entry hb
      simp [EnumerateDualShock3s.loop, hstep, hb]
    | false =>
      obtain ⟨st2, hstep⟩ := body_of_not_breaks st entry hb
      have hab := body_aborted st entry
      rw [hstep] at hab
      simp only [EnumerateDualShock3s.loop, hstep, List.any_cons, hb, Bool.false_or]
      exact ih st2 (hab.trans ha)

/-- Started with an empty list the scan binds the first target among the entries it
reaches, those before the first entry that breaks it. -/
theorem loop_vjoysticks (entries : List dirent) (st : Scan) (h : st.vjoysticks = []) :
    (EnumerateDualShock3s.loop st entries).vjoysticks
      = match (entries.takeWhile fun x => !x.breaks).findSome? dirent.target with
        | some fd => [.dualshock3 (DualShock3.new fd)]
        | none => [] := by
  induction entries generalizing st with
  | nil => simpa [EnumerateDualShock3s.loop] using h
  | cons entry rest ih =>
    cases hb : entry.breaks with
    | true =>
      obtain ⟨st2, hstep, hv⟩ := body_of_breaks st entry hb
      simp [EnumerateDualShock3s.loop, hstep, hb, hv, h]
    | false =>
      obtain ⟨st3, hnext⟩ := body_of_not_breaks st entry hb
      have htw : ((entry :: rest).takeWhile fun x => !x.breaks)
          = entry :: (rest.takeWhile fun x => !x.breaks) := by
        simp [List.takeWhile_cons, hb]
      rw [htw, List.findSome?_cons]
      rcases body_empty st entry h with ⟨st2, hstep, -⟩ | ⟨st2, hstep, hv, ht⟩
        | ⟨st2, fd, hstep, hv, ht⟩
      · rw [hstep] at hnext
        cases hnext
      · simp only [EnumerateDualShock3s.loop, hstep, ht]
        exact ih st2 hv
      · simp only [EnumerateDualShock3s.loop, hstep, ht]
        rw [loop_keep rest st2 (by rw [hv]; simp), hv]

/-- Past entries that are no target and do not break the scan, a target is bound. -/
theorem loop_forced (pre : List dirent) (entry : dirent) (post : List dirent) (fd : Nat)
    (st : Scan) (h : st.vjoysticks = [])
    (hpre : ∀ x ∈ pre, x.target = none ∧ x.breaks = false)
    (ht : entry.target = some fd) (hp : 0 ≤ entry.snprintf) :
    (EnumerateDualShock3s.loop st (pre ++ entry :: post)).vjoysticks
      = [.dualshock3 (DualShock3.new fd)] := by
  induction pre generalizing st with
  | nil => exact loop_target_head st entry post fd h ht hp
  | cons x pre ih =>
    obtain ⟨hxt, hxb⟩ := hpre x (List.mem_cons_self _ _)
    have hpre2 : ∀ y ∈ pre, y.target = none ∧ y.breaks = false :=
      fun y hy => hpre y (List.mem_cons_of_mem _ hy)
    obtain ⟨st3, hnext⟩ := body_of_not_breaks st x hxb
    rcases body_empty st x h with ⟨st2, hstep, -⟩ | ⟨st2, hstep, hv, -⟩
      | ⟨st2, fd2, hstep, -, ht2⟩
    · rw [hstep] at hnext
      cases hnext
    · simp only [List.cons_append, EnumerateDualShock3s.loop, hstep]
      exact ih st2 hv hpre2
    · rw [hxt] at ht2
      cases ht2

/-- C18: called with an empty list, `EnumerateDualShock3s` binds the first target it
reaches and nothing else. A target is a directory entry with the raw-HID name prefix whose
`open` returns a handle and whose identity query returns exactly vendor 0x054c and product
0x0268. (1) The list afterwards is the session on the handle of the first target among the
entries before the first one that breaks the scan, and empty if there is none; (2) the
scan is left by `break` exactly when some entry breaks it; (3) whatever is bound is
the first target in scan order; (4) a target whose path is built, listed after entries
that are no target and do not break the scan, is bound; (5) with no target among the
entries the list stays empty, as it does (6) when `opendir` fails. -/
theorem EnumerateDualShock3s_binds_first_target (dir : DIR) :
    (EnumerateDualShock3s [] (some dir)).vjoysticks
        = (match (dir.entries.takeWhile fun x => !x.breaks).findSome? dirent.target with
          | some fd => [.dualshock3 (DualShock3.new fd)]
          | none => [])
    ∧ (EnumerateDualShock3s [] (some dir)).aborted = dir.entries.any dirent.breaks
    ∧ ((EnumerateDualShock3s [] (some dir)).vjoysticks = []
      ∨ ∃ (pre : List dirent) (entry : dirent) (post : List dirent) (fd : Nat),
          dir.entries = pre ++ entry :: post
          ∧ (∀ x ∈ pre, x.target = none)
          ∧ entry.target = some fd
          ∧ (entry.d_name.take 6 = ['h', 'i', 'd', 'r', 'a', 'w'] ∧ entry.opens = .ok fd
              ∧ ∃ info, entry.rawinfo = .ok info ∧ info.vendor = 0x054c
                  ∧ info.product = 0x0268)
          ∧ (EnumerateDualShock3s [] (some dir)).vjoysticks
              = [.dualshock3 (DualShock3.new fd)])
    ∧ (∀ (pre : List dirent) (entry : dirent) (post : List dirent) (fd : Nat),
        dir.entries = pre ++ entry :: post →
        (∀ x ∈ pre, x.target = none ∧ x.breaks = false) →
        entry.d_name.take 6 = ['h', 'i', 'd', 'r', 'a', 'w'] →
        0 ≤ entry.snprintf →
        entry.opens = .ok fd →
        entry.rawinfo = .ok { vendor := 0x054c, product := 0x0268 } →
        (EnumerateDualShock3s [] (some dir)).vjoysticks = [.dualshock3 (DualShock3.new fd)])
    ∧ ((∀ x ∈ dir.entries, x.target = none) →
        (EnumerateDualShock3s [] (some dir)).vjoysticks = [])
    ∧ (EnumerateDualShock3s [] none).vjoysticks = [] := by
  obtain ⟨hv, ha, -, -⟩ := EnumerateDualShock3s_some [] dir
  have hfirst := loop_first dir.entries
    { vjoysticks := [], errno := 0, opens := [], fds := [], closed := [], diag := [],
      aborted := false } rfl
  refine ⟨?_, ?_, ?_, ?_, ?_, rfl⟩
  · rw [hv]
    exact loop_vjoysticks dir.entries _ rfl
  · rw [ha]
    exact loop_aborted dir.entries _ rfl
  · rw [hv]
    rcases hfirst with h | ⟨pre, entry, post, fd, h1, h2, h3, h4⟩
    · exact Or.inl h
    · exact Or.inr ⟨pre, entry, post, fd, h1, h2, h3, (target_eq_some_iff entry fd).1 h3, h4⟩
  · intro pre entry post fd hsplit hpre hname hpath hopen hinfo
    have ht : entry.target = some fd :=
      (target_eq_some_iff entry fd).2 ⟨hname, hopen, _, hinfo, rfl, rfl⟩
    rw [hv, hsplit]
    exact loop_forced pre entry post fd _ rfl hpre ht hpath
  · intro hnone
    rw [hv]
    rcases hfirst with h | ⟨pre, entry, post, fd, h1, -, h3, -⟩
    · exact h
    · have hmem : entry ∈ dir.entries := by rw [h1]; simp
      rw [hnone entry hmem] at h3
      cases h3

/-- C18 on a listing of `tty0`, a denied `hidraw0`, a `hidraw1` of another identity
(handle 3), the controller on `hidraw2` (handle 4) and a second controller on `hidraw3`
(handle 5): the session is bound to handle 4. -/
theorem EnumerateDualShock3s_binds_first_target_witness :
    (EnumerateDualShock3s [] (some
        { entries :=
            [ { d_name := ['t', 't', 'y', '0'], snprintf := 9, opens := .ok 9,
                rawinfo := .ok { vendor := 0x054c, product := 0x0268 }, closes := 0 },
              { d_name := ['h', 'i', 'd', 'r', 'a', 'w', '0'], snprintf := 12,
                opens := .fail EPERM,
                rawinfo := .ok { vendor := 0x054c, product := 0x0268 }, closes := 0 },
              { d_name := ['h', 'i', 'd', 'r', 'a', 'w', '1'], snprintf := 12, opens := .ok 3,
                rawinfo := .ok { vendor := 0x046d, product := 0xc52b }, closes := 0 },
              { d_name := ['h', 'i', 'd', 'r', 'a', 'w', '2'], snprintf := 12, opens := .ok 4,
                rawinfo := .ok { vendor := 0x054c, product := 0x0268 }, closes := 0 },
              { d_name := ['h', 'i', 'd', 'r', 'a', 'w', '3'], snprintf := 12, opens := .ok 5,
                rawinfo := .ok { vendor := 0x054c, product := 0x0268 }, closes := 0 } ]
          readdir_fail := none
          closedir := 0 })).vjoysticks = [.dualshock3 (DualShock3.new ((4 : Nat) : Int))] :=
  (EnumerateDualShock3s_binds_first_target
      { entries :=
          [ { d_name := ['t', 't', 'y', '0'], snprintf := 9, opens := .ok 9,
              rawinfo := .ok { vendor := 0x054c, product := 0x0268 }, closes := 0 },
            { d_name := ['h', 'i', 'd', 'r', 'a', 'w', '0'], snprintf := 12,
              opens := .fail EPERM,
              rawinfo := .ok { vendor := 0x054c, product := 0x0268 }, closes := 0 },
            { d_name := ['h', 'i', 'd', 'r', 'a', 'w', '1'], snprintf := 12, opens := .ok 3,
              rawinfo := .ok { vendor := 0x046d, product := 0xc52b }, closes := 0 },
            { d_name := ['h', 'i', 'd', 'r', 'a', 'w', '2'], snprintf := 12, opens := .ok 4,
              rawinfo := .ok { vendor := 0x054c, product := 0x0268 }, closes := 0 },
            { d_name := ['h', 'i', 'd', 'r', 'a', 'w', '3'], snprintf := 12, opens := .ok 5,
              rawinfo := .ok { vendor := 0x054c, product := 0x0268 }, closes := 0 } ]
        readdir_fail := none
        closedir := 0 }).2.2.2.1
    [ { d_name := ['t', 't', 'y', '0'], snprintf := 9, opens := .ok 9,
        rawinfo := .ok { vendor := 0x054c, product := 0x0268 }, closes := 0 },
      { d_name := ['h', 'i', 'd', 'r', 'a', 'w', '0'], snprintf := 12, opens := .fail EPERM,
        rawinfo := .ok { vendor := 0x054c, product := 0x0268 }, closes := 0 },
      { d_name := ['h', 'i', 'd', 'r', 'a', 'w', '1'], snprintf := 12, opens := .ok 3,
        rawinfo := .ok { vendor := 0x046d, product := 0xc52b }, closes := 0 } ]
    { d_name := ['h', 'i', 'd', 'r', 'a', 'w', '2'], snprintf := 12, opens := .ok 4,
      rawinfo := .ok { vendor := 0x054c, product := 0x0268 }, closes := 0 }
    [ { d_name := ['h', 'i', 'd', 'r', 'a', 'w', '3'], snprintf := 12, opens := .ok 5,
        rawinfo := .ok { vendor := 0x054c, product := 0x0268 }, closes := 0 } ]
    4 rfl (by decide) (by decide) (by decide) rfl rfl

end DS3
